import Mathlib

/-!
Shallow embedding of the interactive multi-display linking engine
(`MultipleDisplay` in `skfda/exploratory/visualization/_multiple_display.py`).

The embedding models:
* the coordinator state (selection index, clicked flag, reentrancy guard,
  slider values and displayed texts, per-display artist grids with their
  opacities, the `widget_index` attribute);
* the construction path (`__init__`, `_init_axes`, `_create_sliders`,
  `add_slider`), with an explicit trace of rendering side effects so that
  "raised before any rendering side effect" is statable;
* the event handlers `pick` and `value_updated` and the intensity fan-out
  methods `reduce_points_intensity`, `restore_points_intensity`,
  `change_points_intensity`, `change_display_intensity`, together with
  `update_index_display_picked`.

Fallible Python operations (attribute lookup on a never-assigned attribute,
`list.index`, sequence subscripts) are modelled with `Except`; the error kind
mirrors the Python exception class.  Slider raw values are modelled as
rationals: the only arithmetic performed on them (`value / 0.5`, `* 0.5`,
`int(...)`) is exact in binary floating point, so the rational model is
faithful.
-/

deriving instance DecidableEq for Except

namespace SkfdaMD

/-- Python exception kinds that the modelled code can raise. -/
inductive PyErr
  | attributeError (msg : String)
  | indexError (msg : String)
  | valueError (msg : String)
deriving DecidableEq

/-- Index of the first element satisfying `p` (the semantics of the linear
scans `for i, a in enumerate(...): if ...` in the source). -/
def firstIdx (p : α → Bool) : List α → Option ℕ
  | [] => none
  | a :: t => if p a then some 0 else (firstIdx p t).map (· + 1)

/-- Python `int(q)`: truncation toward zero. -/
def pyInt (q : ℚ) : ℤ := if 0 ≤ q then ⌊q⌋ else -⌊-q⌋

/-- The slider discretization formula `int(int(value / 0.5) * 0.5)` from
`value_updated` (line 531 of the source). -/
def discretize (value : ℚ) : ℤ := pyInt ((pyInt (value / (1 / 2)) : ℚ) * (1 / 2))

/-- Python list subscript `l[i]`: negative indices count from the end;
out-of-range access is an `IndexError` (modelled as `none`). -/
def pyListGet (l : List α) (i : ℤ) : Option α :=
  let j : ℤ := if i < 0 then i + l.length else i
  if 0 ≤ j then l.get? j.toNat else none

/-- Python `l.index(x)`: position of the first occurrence, `ValueError` if
absent. -/
def pyIndex (l : List ℤ) (x : ℤ) : Except PyErr ℕ :=
  match firstIdx (fun a => a == x) l with
  | some i => .ok i
  | none => .error (.valueError "x not in list")

/-- The text a slider displays for a value (matplotlib renders `valfmt % val`;
the exact format string is irrelevant to every claim, only that `set_val`
rewrites the text). -/
def fmtVal (v : ℚ) : String := toString v

/-- One slider widget: its current value and its displayed text
(`slider.val` and `slider.valtext`). -/
structure SliderSt where
  val : ℚ
  text : String
deriving DecidableEq

/-- `Slider.set_val`: stores the value and rewrites the displayed text.
`set_val` also notifies the `on_changed` observer (`value_updated`); at every
call site in the source the call happens while `is_updating` is true, so the
observer returns immediately (line 526) and is not modelled here. -/
def setVal (_sl : SliderSt) (v : ℚ) : SliderSt := { val := v, text := fmtVal v }

/-- A pickable artist: its identity and the axes object it lives on
(`artist.axes`). -/
structure PArtist where
  id : ℕ
  axesId : ℕ
deriving DecidableEq

/-- One `BasePlot` display as the coordinator sees it: its declared sample
count (`n_samples()`), its list of axes, the artist grid
`artists[sample][sub_axis]` populated by `plot()`, and the opacity of each
artist (`alphas` parallels `artists`). -/
structure Display where
  nSamples : ℕ
  axes : List ℕ
  artists : List (List PArtist)
  alphas : List (List ℚ)
deriving DecidableEq

/-- The mutable state of a `MultipleDisplay` coordinator. -/
structure MultipleDisplay where
  lengthData : ℕ
  displays : List Display
  /-- `self.criteria`: one order list per slider, built by `add_slider`. -/
  criteria : List (List ℤ)
  sliders : List SliderSt
  pointClicked : Option PArtist
  indexClicked : ℤ
  clicked : Bool
  isUpdating : Bool
  /-- `self.widget_index`: assigned only by the `hover` handler when the
  pointer moves over a slider axis; `none` models "never assigned". -/
  widgetIndex : Option ℕ
deriving DecidableEq

/-! ## `add_slider`: construction of the order list (source lines 514-516)

```python
dic = dict(zip(criterion, range(self.length_data)))
order_dic = collections.OrderedDict(sorted(dic.items()))
self.criteria.append(order_dic.values())
```
-/

/-- Python `dict` insertion: update in place if the key exists, else append. -/
def dictInsert (l : List (ℚ × ℕ)) (k : ℚ) (v : ℕ) : List (ℚ × ℕ) :=
  match l with
  | [] => [(k, v)]
  | (k', v') :: t => if k = k' then (k, v) :: t else (k', v') :: dictInsert t k v

/-- `dict(zip(criterion, range(n)))`: later pairs with an already-present key
overwrite the stored index. -/
def dictOfZip (criterion : List ℚ) (n : ℕ) : List (ℚ × ℕ) :=
  (criterion.zip (List.range n)).foldl (fun d kv => dictInsert d kv.1 kv.2) []

/-- The order list built by `add_slider`:
`OrderedDict(sorted(dict(zip(criterion, range(n))).items())).values()`.
Python's `sorted` is a stable sort by lexicographic tuple order; keys in a
dict are distinct, so it only ever compares the keys, and any stable sort by
key gives the same list (insertion sort here, which is stable and
kernel-computable). -/
def buildOrder (criterion : List ℚ) (n : ℕ) : List ℤ :=
  ((dictOfZip criterion n).insertionSort (fun a b => a.1 ≤ b.1)).map (fun p => (p.2 : ℤ))

/-! ## Python loops with exceptions -/

/-- A Python `for` loop building a new list, stopping at the first raised
exception (used for iteration over `self.displays`). -/
def mapE (f : α → Except PyErr β) : List α → Except PyErr (List β)
  | [] => .ok []
  | a :: t =>
    match f a with
    | .error e => .error e
    | .ok b =>
      match mapE f t with
      | .error e => .error e
      | .ok bs => .ok (b :: bs)

/-- A Python `for` loop threading mutable state, stopping at the first raised
exception (used for `for i in range(self.length_data)` loops). -/
def foldE (f : σ → α → Except PyErr σ) : σ → List α → Except PyErr σ
  | s, [] => .ok s
  | s, a :: t =>
    match f s a with
    | .error e => .error e
    | .ok s' => foldE f s' t

/-! ## Intensity updates on one sample's artists -/

/-- `for artist in np.ravel(d.artists[i]): artist.set_alpha(v)` — indexing
`d.artists[i]` raises `IndexError` when `i` is out of range; every artist of
sample `i` (one per sub-axis) receives the same opacity. -/
def setRowAlpha (d : Display) (i : ℕ) (v : ℚ) : Except PyErr Display :=
  if i < d.artists.length then
    .ok { d with alphas := d.alphas.set i ((d.alphas.getD i []).map (fun _ => v)) }
  else .error (.indexError "artists")

/-- Set sample `i`'s opacity in every display (the inner loops of
`reduce_points_intensity` and `restore_points_intensity`). -/
def setIntensityAll (ds : List Display) (i : ℕ) (v : ℚ) : Except PyErr (List Display) :=
  mapE (fun d => setRowAlpha d i v) ds

/-- `change_display_intensity(index, intensity)` (source lines 457-469):
skips a display whose artist grid is empty. -/
def change_display_intensity (ds : List Display) (i : ℕ) (v : ℚ) :
    Except PyErr (List Display) :=
  mapE (fun d => if d.artists.length = 0 then .ok d else setRowAlpha d i v) ds

/-! ## Slider pushes -/

/-- `for criterium, slider in zip(self.criteria, self.sliders):
val_widget = list(criterium).index(self.index_clicked);
slider.set_val(val_widget)` — the push loop shared by
`reduce_points_intensity` (lines 398-400) and `change_points_intensity`
(lines 452-454).  `zip` truncates to the shorter list.  Every call site runs
under `is_updating = True`, so the `value_updated` observer that `set_val`
fires returns immediately. -/
def pushSliders (target : ℤ) : List (List ℤ) → List SliderSt → Except PyErr (List SliderSt)
  | [], sls => .ok sls
  | _, [] => .ok []
  | c :: cs, sl :: sls =>
    match pyIndex c target with
    | .error e => .error e
    | .ok p =>
      match pushSliders target cs sls with
      | .error e => .error e
      | .ok rest => .ok (setVal sl (p : ℚ) :: rest)

/-- The push loop of `value_updated` (lines 537-540): same as `pushSliders`
but skipping the slider the user is moving (`i != self.widget_index`). -/
def pushOthers (wi : ℕ) (target : ℤ) :
    ℕ → List (List ℤ) → List SliderSt → Except PyErr (List SliderSt)
  | _, [], sls => .ok sls
  | _, _, [] => .ok []
  | k, c :: cs, sl :: sls =>
    if k = wi then
      match pushOthers wi target (k + 1) cs sls with
      | .error e => .error e
      | .ok rest => .ok (sl :: rest)
    else
      match pyIndex c target with
      | .error e => .error e
      | .ok p =>
        match pushOthers wi target (k + 1) cs sls with
        | .error e => .error e
        | .ok rest => .ok (setVal sl (p : ℚ) :: rest)

/-! ## The fan-out methods -/

/-- `reduce_points_intensity` (source lines 389-401): dim every sample except
the selected one to opacity 0.1, then push the selected sample's position to
every slider under the `is_updating` guard (set before the pushes, cleared
after, so the final state has it cleared). -/
def reduce_points_intensity (s : MultipleDisplay) : Except PyErr MultipleDisplay :=
  match foldE
      (fun ds (i : ℕ) => if (i : ℤ) = s.indexClicked then .ok ds else setIntensityAll ds i (1 / 10))
      s.displays (List.range s.lengthData) with
  | .error e => .error e
  | .ok ds =>
    match pushSliders s.indexClicked s.criteria s.sliders with
    | .error e => .error e
    | .ok sls => .ok { s with displays := ds, sliders := sls, isUpdating := false }

/-- `restore_points_intensity` (source lines 403-416): every sample back to
opacity 1, selection cleared, every slider reset to 0 under the guard. -/
def restore_points_intensity (s : MultipleDisplay) : Except PyErr MultipleDisplay :=
  match foldE (fun ds i => setIntensityAll ds i 1) s.displays (List.range s.lengthData) with
  | .error e => .error e
  | .ok ds =>
    .ok { s with
          displays := ds
          pointClicked := none
          indexClicked := -1
          sliders := s.sliders.map (fun sl => setVal sl 0)
          isUpdating := false }

/-- `update_index_display_picked` (source lines 374-387): scan the displays
for the axes holding `point_clicked`; on the first matching axis, locate the
sample row of the clicked artist with `np.where` (an empty `np.where` result
makes the `[0][0]` subscript raise `IndexError`).  If no axis matches anywhere
the method falls through and `index_clicked` keeps its value. -/
def resolveIndex (pc : PArtist) : List Display → Except PyErr (Option ℕ)
  | [] => .ok none
  | d :: rest =>
    match firstIdx (fun a => a == pc.axesId) d.axes with
    | none => resolveIndex pc rest
    | some i =>
      match
        (if d.axes.length = 1 then
          firstIdx (fun row => row.contains pc) d.artists
        else
          firstIdx (fun row => row.get? i == some pc) d.artists) with
      | none => .error (.indexError "np.where")
      | some j => .ok (some j)

/-- `update_index_display_picked` as a state update; reading
`self.point_clicked.axes` on `None` is an `AttributeError`. -/
def update_index_display_picked (s : MultipleDisplay) : Except PyErr MultipleDisplay :=
  match s.pointClicked with
  | none => .error (.attributeError "NoneType has no attribute axes")
  | some pc =>
    match resolveIndex pc s.displays with
    | .error e => .error e
    | .ok none => .ok s
    | .ok (some j) => .ok { s with indexClicked := (j : ℤ) }

/-- The per-sample step of the intensity loop of `change_points_intensity`
(source lines 440-449).  The source assigns `intensity` 1.0, 0.1 or the
sentinel -1 and calls `change_display_intensity` exactly when
`intensity != -1`; since 1.0 and 0.1 differ from -1 this is precisely the two
branches below. -/
def changeStep (new old : ℤ) (ds : List Display) (i : ℕ) : Except PyErr (List Display) :=
  if (i : ℤ) = new then change_display_intensity ds i 1
  else if (i : ℤ) = old then change_display_intensity ds i (1 / 10)
  else .ok ds

/-- The body of `change_points_intensity` once `old_index` is known
(source lines 436-455). -/
def changeBody (old : ℤ) (s : MultipleDisplay) : Except PyErr MultipleDisplay :=
  if s.indexClicked = old then restore_points_intensity s
  else
    match foldE (changeStep s.indexClicked old) s.displays (List.range s.lengthData) with
    | .error e => .error e
    | .ok ds =>
      match pushSliders s.indexClicked s.criteria s.sliders with
      | .error e => .error e
      | .ok sls => .ok { s with displays := ds, sliders := sls, isUpdating := false }

/-- `change_points_intensity(old_index)` (source lines 418-455): with
`old_index=None` it remembers the previous selection and re-resolves the
clicked artist first. -/
def change_points_intensity (oldIndex : Option ℤ) (s : MultipleDisplay) :
    Except PyErr MultipleDisplay :=
  match oldIndex with
  | none =>
    match update_index_display_picked s with
    | .error e => .error e
    | .ok s' => changeBody s.indexClicked s'
  | some o => changeBody o s

/-- `pick(event)` (source lines 346-372), taking the event's artist. -/
def pick (artist : PArtist) (s : MultipleDisplay) : Except PyErr MultipleDisplay :=
  if s.clicked then
    match change_points_intensity none { s with pointClicked := some artist } with
    | .error e => .error e
    | .ok s' => .ok { s' with clicked := false }
  else
    match s.pointClicked with
    | none =>
      match update_index_display_picked { s with pointClicked := some artist } with
      | .error e => .error e
      | .ok s' => reduce_points_intensity s'
    | some pc =>
      if pc = artist then restore_points_intensity s
      else change_points_intensity none { s with pointClicked := some artist }

/-- `value_updated(value)` (source lines 518-551).  The guard is checked
first; after it the code sets `is_updating`, reads `self.widget_index`
(raising `AttributeError` when `hover` never assigned it), computes the
discretized step, looks up the new selection in the order list (Python
subscript, so negative steps wrap), rewrites this slider's displayed text,
pushes every *other* slider, clears the guard, arms `clicked`, and finally
routes into `reduce_points_intensity` or `change_points_intensity`. -/
def value_updated_step (index : ℤ) (s : MultipleDisplay) : Except PyErr MultipleDisplay :=
  let old := s.indexClicked
  match s.widgetIndex with
    | none => .error (.attributeError "widget_index")
    | some wi =>
      match s.criteria.get? wi with
      | none => .error (.indexError "criteria")
      | some order =>
        match pyListGet order index with
        | none => .error (.indexError "order")
        | some newIdx =>
          match s.sliders.get? wi with
          | none => .error (.indexError "sliders")
          | some sl =>
            let sliders1 := s.sliders.set wi { sl with text := toString index }
            match pushOthers wi newIdx 0 s.criteria sliders1 with
            | .error e => .error e
            | .ok sliders2 =>
              let s1 : MultipleDisplay :=
                { s with
                  indexClicked := newIdx
                  sliders := sliders2
                  isUpdating := false
                  clicked := true }
              if old = -1 then reduce_points_intensity s1
              else if newIdx = old then
                change_points_intensity (some old) { s1 with clicked := false }
              else change_points_intensity (some old) s1

/-- `value_updated(value)`: the reentrancy guard, then everything after the
discretization `index = int(int(value / 0.5) * 0.5)`. -/
def value_updated (value : ℚ) (s : MultipleDisplay) : Except PyErr MultipleDisplay :=
  if s.isUpdating then .ok s
  else value_updated_step (discretize value) s

/-! ## Construction (`__init__`, `_init_axes`, `_create_sliders`, `add_slider`)

Rendering side effects performed during construction are recorded in an
explicit trace, so that "raised before any rendering side effect" becomes a
statement about the trace accumulated when the error is raised. -/

/-- Observable side effects of construction, in the order they happen. -/
inductive Eff
  /-- `self._tag = self._create_annotation()` (line 75): builds the detached
  hover label object (attached to no figure). -/
  | mkTag
  /-- A new figure is created because neither `fig` nor `axes` was given. -/
  | figCreate
  /-- The grid of axes is created and laid out in the figure. -/
  | layoutAxes
  /-- `axes[i].set_visible(False)` on a surplus grid slot (line 147). -/
  | hideAxis (i : ℕ)
  /-- `axes[i].set_box_aspect(widget_aspect)` on a slider slot (line 149). -/
  | setAspect (i : ℕ)
  /-- `add_slider` builds the widget for criterion `k` (lines 491-512). -/
  | buildSlider (k : ℕ)
deriving DecidableEq

/-- Construction-time configuration errors (all `ValueError` in the source)
plus the `IndexError` of `self.displays[0]` on an empty display list. -/
inductive InitErr
  | emptyDisplays
  /-- `"Size of criteria, and sliders should be equal"` (line 90). -/
  | countMismatch
  /-- `"Invalid number of axes."` (line 134). -/
  | invalidAxes
  /-- `"Slider criteria should be of the same size as data"` (line 172). -/
  | criterionLength
deriving DecidableEq

/-- Arguments of `MultipleDisplay.__init__` after the sequence
normalizations of lines 64-87: a list of displays, one criterion per slider,
the number of slider widget factories, and the optional figure / axes
arguments (an explicit axis set is a list of axis ids; `figAxes` are the axes
a supplied figure already carries). -/
structure InitArgs where
  displays : List Display
  criteria : List (List ℚ)
  nSliders : ℕ
  figGiven : Bool
  figAxes : List ℕ
  axesArg : List ℕ

/-- Modelled from the spec: `_get_figure_and_axes` (in `_utils.py`, not under
`src/`).  Spec section 4.1/6: construction takes "an optional pre-existing
drawing-surface/axis set"; a figure is initialized only when neither is given
("If None and ax is also None, the figure is initialized" — class docstring).
Returns whether a figure was created, and the working axis list (the supplied
axes, the supplied figure's axes, or empty). -/
def getFigureAndAxes (figGiven : Bool) (figAxes axesArg : List ℕ) : Bool × List ℕ :=
  if axesArg ≠ [] then (false, axesArg)
  else if figGiven then (false, figAxes)
  else (true, [])

/-- Modelled from the spec: `_get_axes_shape` (in `_utils.py`, not under
`src/`).  Spec section 4.1: "requests a grid layout sized to fit that count
(near-square row/column split)".  Columns = ceiling square root, rows =
ceiling of the quotient. -/
def getAxesShape (n : ℕ) : ℕ × ℕ :=
  let cols := if n = 0 then 0 else Nat.sqrt (n - 1) + 1
  (if cols = 0 then 0 else (n + cols - 1) / cols, cols)

/-- Modelled from the spec: `_set_figure_layout` (in `_utils.py`, not under
`src/`).  Spec section 6: the drawing-surface provider, "given a requested
cell count, returns a grid of addressable axes/cells sized to at least that
count".  When no axes were supplied the full grid is created (a layout side
effect); otherwise the supplied set is used, padded to the grid size by the
provider.  Returns whether a layout was performed and the slot count. -/
def setFigureLayout (suppliedCount gridSize : ℕ) : Bool × ℕ :=
  if suppliedCount = 0 then (true, gridSize) else (false, max suppliedCount gridSize)

/-- The widget built by `add_slider` (lines 491-499): created with
`valinit=0`, and matplotlib initializes the displayed text from that value. -/
def initialSlider : SliderSt := { val := 0, text := fmtVal 0 }

/-- Total number of view axes: `self._n_graphs = sum(len(d.axes) for d in
self.displays)` (line 69). -/
def nGraphsOf (a : InitArgs) : ℕ := (a.displays.map (fun d => d.axes.length)).sum

/-- The body of `__init__` once `self.displays[0]` has been read
(`d0` is the first display; `length_data = d0.nSamples`). -/
def initBody (a : InitArgs) (d0 : Display) : List Eff × Except InitErr MultipleDisplay :=
  if a.criteria.length ≠ a.nSliders then ([.mkTag], .error .countMismatch)
  else
    let fa := getFigureAndAxes a.figGiven a.figAxes a.axesArg
    let tr1 := [Eff.mkTag] ++ (if fa.1 then [Eff.figCreate] else [])
    if fa.2.length ≠ 0 ∧ fa.2.length ≠ nGraphsOf a + a.criteria.length then
      (tr1, .error .invalidAxes)
    else
      let shape := getAxesShape (nGraphsOf a + a.criteria.length)
      let numberAxes := shape.1 * shape.2
      let lay := setFigureLayout fa.2.length numberAxes
      let tr2 := tr1 ++ (if lay.1 then [Eff.layoutAxes] else [])
        ++ ((List.range' (nGraphsOf a) (numberAxes - nGraphsOf a)).map
          (fun i => if nGraphsOf a + a.criteria.length ≤ i then Eff.hideAxis i
                    else Eff.setAspect i))
      if a.criteria.any (fun c => c.length ≠ d0.nSamples) then
        (tr2, .error .criterionLength)
      else
        (tr2 ++ (List.range a.criteria.length).map Eff.buildSlider,
         .ok
          { lengthData := d0.nSamples
            displays := a.displays
            criteria := a.criteria.map (fun c => buildOrder c d0.nSamples)
            sliders := (List.range a.criteria.length).map (fun _ => initialSlider)
            pointClicked := none
            indexClicked := -1
            clicked := false
            isUpdating := false
            widgetIndex := none })

/-- `MultipleDisplay.__init__` (source lines 54-106) as a function from
arguments to the trace of rendering side effects performed together with
either the constructed state or the error raised.  Reading
`self.displays[0]` on an empty display list is an `IndexError`. -/
def init (a : InitArgs) : List Eff × Except InitErr MultipleDisplay :=
  match a.displays.head? with
  | none => ([], .error .emptyDisplays)
  | some d0 => initBody a d0

/-! ## Concrete states used by the scenario claims -/

/-- One display with one axis (id 7) and three one-artist samples, as after
`plot()`. -/
def demoDisplay : Display :=
  { nSamples := 3
    axes := [7]
    artists := [[⟨0, 7⟩], [⟨1, 7⟩], [⟨2, 7⟩]]
    alphas := [[1], [1], [1]] }

/-- A coordinator with `length_data = 3`, one view and the single criterion
`[5, 1, 9]`, after the user's pointer has moved over the slider axis (so
`widget_index` is assigned, as moving the slider requires). -/
def demoState : MultipleDisplay :=
  { lengthData := 3
    displays := [demoDisplay]
    criteria := [buildOrder [5, 1, 9] 3]
    sliders := [initialSlider]
    pointClicked := none
    indexClicked := -1
    clicked := false
    isUpdating := false
    widgetIndex := some 0 }

/-- `demoState` right after picking sample 1 (its artist is remembered and
`index_clicked` resolved). -/
def demoPicked : MultipleDisplay :=
  { demoState with indexClicked := 1, pointClicked := some ⟨1, 7⟩ }

/-- Construction arguments with one criterion but two slider widget
factories (a count mismatch), no figure and no axes supplied. -/
def badCountArgs : InitArgs :=
  { displays := [demoDisplay]
    criteria := [[5, 1, 9]]
    nSliders := 2
    figGiven := false
    figAxes := []
    axesArg := [] }

/-- Construction arguments whose single criterion has length 2 while the
first display holds 3 samples; counts match and no figure or axes are
supplied, so construction runs through figure creation and axis layout
before `_create_sliders` checks the criterion length. -/
def badCriterionArgs : InitArgs :=
  { displays := [{ nSamples := 3, axes := [0], artists := [], alphas := [] }]
    criteria := [[1, 2]]
    nSliders := 1
    figGiven := false
    figAxes := []
    axesArg := [] }

/-- The success payload of an `Except`-returning operation (used to name the
state an operation is proved to produce). -/
def okState (dflt : MultipleDisplay) : Except PyErr MultipleDisplay → MultipleDisplay
  | .ok t => t
  | .error _ => dflt

/-- The cross-slider consistency invariant: every bound slider's discretized
position maps via its order list back to the currently selected sample
(`order[position] = index_clicked`). -/
def SliderInv (s : MultipleDisplay) : Prop :=
  ∀ k, k < s.sliders.length →
    ∃ ord sl, s.criteria.get? k = some ord ∧ s.sliders.get? k = some sl ∧
      pyListGet ord (discretize sl.val) = some s.indexClicked

/-- Every sample's artists in every view are at opacity 1. -/
def AllAlphasOne (s : MultipleDisplay) : Prop :=
  ∀ d ∈ s.displays, ∀ row ∈ d.alphas, ∀ x ∈ row, x = 1

/-- Well-formed artist grids: every display carries one artist row and one
opacity row per sample. -/
def DisplaysWF (n : ℕ) (ds : List Display) : Prop :=
  ∀ d ∈ ds, d.artists.length = n ∧ d.alphas.length = n

/-- What one step of an intensity loop does: when `f i` is the constant
`some v`, row `i` of every display with a nonempty artist grid is rewritten
to opacity `v`; when `f i = none` the step leaves everything unchanged.
`nSamples`, `axes` and `artists` are never touched. -/
def StepSpec (step : List Display → ℕ → Except PyErr (List Display))
    (f : ℕ → Option ℚ) : Prop :=
  ∀ ds i ds', step ds i = .ok ds' →
    ds'.length = ds.length ∧
    ∀ k d d', ds.get? k = some d → ds'.get? k = some d' →
      d'.nSamples = d.nSamples ∧ d'.axes = d.axes ∧ d'.artists = d.artists ∧
      (f i = none → ∀ r, d'.alphas.get? r = d.alphas.get? r) ∧
      (∀ v, f i = some v → ∀ r, d'.alphas.get? r =
        if r = i ∧ d.artists.length ≠ 0
        then (d.alphas.get? r).map (fun row => row.map (fun _ => v))
        else d.alphas.get? r)

/-! ## Arithmetic lemmas about the discretization -/

theorem pyInt_intCast (k : ℤ) : pyInt (k : ℚ) = k := by
  unfold pyInt
  rcases le_or_lt 0 k with h | h
  · rw [if_pos (by exact_mod_cast h), Int.floor_intCast]
  · rw [if_neg (by exact_mod_cast not_le.mpr h)]
    rw [show (-(k : ℚ)) = ((-k : ℤ) : ℚ) by push_cast; ring, Int.floor_intCast]
    ring

/-- On an exactly integral slider value the discretization formula is the
identity. -/
theorem discretize_intCast (p : ℤ) : discretize (p : ℚ) = p := by
  unfold discretize
  have h2 : ((p : ℚ) / (1 / 2)) = ((2 * p : ℤ) : ℚ) := by push_cast; ring
  rw [h2, pyInt_intCast]
  have h3 : (((2 * p : ℤ) : ℚ)) * (1 / 2) = ((p : ℤ) : ℚ) := by push_cast; ring
  rw [h3, pyInt_intCast]

theorem discretize_natCast (p : ℕ) : discretize (p : ℚ) = (p : ℤ) := by
  have := discretize_intCast (p : ℤ)
  rwa [Int.cast_natCast] at this

/-! ## Claim C1: the order list built by `add_slider` -/

theorem dictInsert_fresh (l : List (ℚ × ℕ)) (k : ℚ) (v : ℕ)
    (h : k ∉ l.map Prod.fst) : dictInsert l k v = l ++ [(k, v)] := by
  induction l with
  | nil => rfl
  | cons p t ih =>
    obtain ⟨k', v'⟩ := p
    simp only [List.map_cons, List.mem_cons] at h
    push_neg at h
    unfold dictInsert
    rw [if_neg h.1]
    simp [ih h.2]

theorem foldl_dictInsert_fresh (l : List (ℚ × ℕ)) :
    ∀ acc : List (ℚ × ℕ), (∀ p ∈ l, p.1 ∉ acc.map Prod.fst) → (l.map Prod.fst).Nodup →
    l.foldl (fun d kv => dictInsert d kv.1 kv.2) acc = acc ++ l := by
  induction l with
  | nil => intro acc _ _; simp
  | cons p t ih =>
    intro acc hd hn
    simp only [List.foldl_cons]
    rw [dictInsert_fresh acc p.1 p.2 (hd p (by simp))]
    simp only [List.map_cons, List.nodup_cons] at hn
    rw [ih (acc ++ [(p.1, p.2)]) ?_ hn.2]
    · simp
    · intro q hq
      simp only [List.map_append, List.mem_append]
      push_neg
      refine ⟨hd q (by simp [hq]), ?_⟩
      have : q.1 ∈ t.map Prod.fst := List.mem_map_of_mem Prod.fst hq
      intro hc
      simp only [List.map_cons, List.mem_cons] at hc
      rcases hc with hc | hc
      · exact hn.1 (hc ▸ this)
      · simp at hc

/-- With pairwise-distinct criterion values no dict insertion ever overwrites,
so the dict holds exactly the zipped pairs in order. -/
theorem dictOfZip_eq (c : List ℚ) (n : ℕ) (hnd : c.Nodup) (hlen : c.length = n) :
    dictOfZip c n = c.zip (List.range n) := by
  unfold dictOfZip
  rw [foldl_dictInsert_fresh (c.zip (List.range n)) [] (by simp) ?_]
  · simp
  · rw [List.map_fst_zip c (List.range n) (by simp [hlen])]
    exact hnd

theorem zip_range_get (c : List ℚ) (n : ℕ) (hlen : c.length = n) {p : ℚ × ℕ}
    (hp : p ∈ c.zip (List.range n)) : c.get? p.2 = some p.1 := by
  have h1 : p.swap ∈ (List.range n).zip c := by
    rw [← List.zip_swap]
    exact List.mem_map_of_mem Prod.swap hp
  rw [← hlen, ← List.enum_eq_zip_range] at h1
  have := List.mem_enum_iff_getElem?.mp h1
  simpa [List.get?_eq_getElem?] using this

/-- Counterexample to C1 as stated: with the duplicate criterion `[5, 5]`
(`length_data = 2`) the `dict(zip(...))` construction collapses the two
samples into one entry, so the order list is `[1]` — not a permutation of
`[0, 2)`. -/
theorem C1_duplicates_counterexample :
    buildOrder [5, 5] 2 = [1]
    ∧ ¬ (buildOrder [5, 5] 2).Perm ((List.range 2).map Int.ofNat) := by
  decide

/-- C1 amended: when the criterion values are pairwise distinct, the order
list is a permutation of `[0, length_data)` listing the sample indices in
strictly ascending criterion order (with distinct values there are no ties,
so stability is vacuous).  With duplicate values the dict construction keeps
only the last sample index per distinct value and the list is not a
permutation. -/
theorem C1_order_sorted_perm (c : List ℚ) (n : ℕ) (hnd : c.Nodup) (hlen : c.length = n) :
    (buildOrder c n).Perm ((List.range n).map Int.ofNat)
    ∧ (buildOrder c n).Pairwise (fun i j => c.getD i.toNat 0 < c.getD j.toNat 0) := by
  haveI instT : IsTotal (ℚ × ℕ) (fun a b => a.1 ≤ b.1) := ⟨fun a b => le_total a.1 b.1⟩
  haveI instTr : IsTrans (ℚ × ℕ) (fun a b => a.1 ≤ b.1) :=
    ⟨fun _ _ _ hab hbc => le_trans hab hbc⟩
  have hz := dictOfZip_eq c n hnd hlen
  unfold buildOrder
  rw [hz]
  have hperm := List.perm_insertionSort (fun a b : ℚ × ℕ => a.1 ≤ b.1) (c.zip (List.range n))
  constructor
  · have h2 := hperm.map Prod.snd
    have h3 : (c.zip (List.range n)).map Prod.snd = List.range n :=
      List.map_snd_zip c (List.range n) (by simp [hlen])
    rw [h3] at h2
    have h4 := h2.map Int.ofNat
    rw [List.map_map] at h4
    convert h4 using 2
  · have hs := List.sorted_insertionSort (fun a b : ℚ × ℕ => a.1 ≤ b.1) (c.zip (List.range n))
    have hnodup :
        (((c.zip (List.range n)).insertionSort (fun a b => a.1 ≤ b.1)).map Prod.fst).Nodup := by
      have hbase : ((c.zip (List.range n)).map Prod.fst).Nodup := by
        rw [List.map_fst_zip c (List.range n) (by simp [hlen])]
        exact hnd
      exact hbase.perm (hperm.map Prod.fst).symm
    have hne : ((c.zip (List.range n)).insertionSort (fun a b => a.1 ≤ b.1)).Pairwise
        (fun p q => p.1 ≠ q.1) := List.pairwise_map.mp hnodup
    have hlt : ((c.zip (List.range n)).insertionSort (fun a b => a.1 ≤ b.1)).Pairwise
        (fun p q => p.1 < q.1) := by
      have hand := List.Pairwise.and hs hne
      exact hand.imp (fun h => lt_of_le_of_ne h.1 h.2)
    refine List.pairwise_map.mpr ?_
    refine hlt.imp_of_mem ?_
    intro p q hp hq h
    have hp' : c.get? p.2 = some p.1 :=
      zip_range_get c n hlen ((List.mem_insertionSort _).mp hp)
    have hq' : c.get? q.2 = some q.1 :=
      zip_range_get c n hlen ((List.mem_insertionSort _).mp hq)
    have e1 : c.getD ((p.2 : ℤ)).toNat 0 = p.1 := by
      rw [Int.toNat_natCast, List.getD_eq_getD_get?, hp']
      rfl
    have e2 : c.getD ((q.2 : ℤ)).toNat 0 = q.1 := by
      rw [Int.toNat_natCast, List.getD_eq_getD_get?, hq']
      rfl
    rw [e1, e2]
    exact h

/-- Witness for the amended C1 at the distinct criterion `[5, 1, 9]`. -/
theorem C1_order_sorted_perm_witness :
    ([5, 1, 9] : List ℚ).Nodup ∧ ([5, 1, 9] : List ℚ).length = 3
    ∧ ((buildOrder [5, 1, 9] 3).Perm ((List.range 3).map Int.ofNat)
      ∧ (buildOrder [5, 1, 9] 3).Pairwise
          (fun i j => ([5, 1, 9] : List ℚ).getD i.toNat 0 < ([5, 1, 9] : List ℚ).getD j.toNat 0)) :=
  ⟨by decide, rfl, C1_order_sorted_perm [5, 1, 9] 3 (by decide) rfl⟩

/-! ## Claim C3 -/

/-- C3: while `is_updating` is true, any invocation of the value-changed
callback `value_updated` returns immediately and leaves the whole coordinator
state (selection index, clicked flag, slider values and texts, every artist's
opacity — all fields of `MultipleDisplay`) exactly as it was. -/
theorem C3_guard_noop (v : ℚ) (s : MultipleDisplay) (h : s.isUpdating = true) :
    value_updated v s = .ok s := by
  unfold value_updated
  rw [if_pos h]

/-- Witness for C3 at a concrete updating state. -/
theorem C3_guard_noop_witness :
    ({ demoState with isUpdating := true }).isUpdating = true
    ∧ value_updated (7 / 2) { demoState with isUpdating := true } =
        .ok { demoState with isUpdating := true } :=
  ⟨rfl, C3_guard_noop (7 / 2) { demoState with isUpdating := true } rfl⟩

/-! ## Claim C9 -/

/-- C9: the discretization formula `int(int(value / 0.5) * 0.5)` of
`value_updated` evaluates to 0 for every raw value in `[0, 1)`. -/
theorem C9_discretize_unit_interval (v : ℚ) (h0 : 0 ≤ v) (h1 : v < 1) :
    discretize v = 0 := by
  unfold discretize
  have h2 : v / (1 / 2) = 2 * v := by ring
  rw [h2]
  have hnn : (0 : ℚ) ≤ 2 * v := by linarith
  have hfl : pyInt (2 * v) = ⌊2 * v⌋ := by unfold pyInt; rw [if_pos hnn]
  rw [hfl]
  have hlo : 0 ≤ ⌊2 * v⌋ := Int.floor_nonneg.mpr hnn
  have hhi : ⌊2 * v⌋ < 2 := by
    rw [Int.floor_lt]
    push_cast
    linarith
  interval_cases h : ⌊2 * v⌋
  · norm_num
    simpa using pyInt_intCast 0
  · rw [show ((1 : ℤ) : ℚ) * (1 / 2) = (1 / 2 : ℚ) by push_cast; ring]
    unfold pyInt
    rw [if_pos (by norm_num)]
    rw [Int.floor_eq_zero_iff.mpr (by constructor <;> norm_num)]

/-- Witness for C9 at `value = 7/10`. -/
theorem C9_discretize_unit_interval_witness :
    (0 : ℚ) ≤ 7 / 10 ∧ (7 / 10 : ℚ) < 1 ∧ discretize (7 / 10) = 0 :=
  ⟨by norm_num, by norm_num,
    C9_discretize_unit_interval (7 / 10) (by norm_num) (by norm_num)⟩

/-! ## Claim C10 -/

/-- Counterexample to C10 as stated: a value-changed callback can fire with
`widget_index` never assigned while `is_updating` is true (exactly what
happens when, after a pick with no prior hover over a slider axis,
`reduce_points_intensity` pushes the sliders programmatically and `set_val`
notifies `value_updated`); the call then returns successfully as a silent
no-op instead of failing with an attribute-lookup error. -/
theorem C10_guarded_callback_counterexample :
    ({ demoState with isUpdating := true, widgetIndex := none }).widgetIndex = none
    ∧ ({ demoState with isUpdating := true, widgetIndex := none }).sliders.length = 1
    ∧ value_updated 0 { demoState with isUpdating := true, widgetIndex := none } =
        .ok { demoState with isUpdating := true, widgetIndex := none } := by
  refine ⟨rfl, rfl, ?_⟩
  unfold value_updated
  rw [if_pos rfl]

/-- C10 amended: if the callback fires while `is_updating` is false (a user
interaction, not a guarded programmatic push) and `widget_index` was never
assigned — no pointer-move over a slider axis ever happened — then
`value_updated` raises `AttributeError` instead of degrading to a no-op. -/
theorem C10_attribute_error_when_unguarded (v : ℚ) (s : MultipleDisplay)
    (hguard : s.isUpdating = false) (hw : s.widgetIndex = none) :
    value_updated v s = .error (.attributeError "widget_index") := by
  unfold value_updated value_updated_step
  rw [hguard, hw]
  simp

/-- Witness for the amended C10 at a concrete never-hovered state. -/
theorem C10_attribute_error_when_unguarded_witness :
    ({ demoState with widgetIndex := none }).isUpdating = false
    ∧ ({ demoState with widgetIndex := none }).widgetIndex = none
    ∧ value_updated 0 { demoState with widgetIndex := none } =
        .error (.attributeError "widget_index") :=
  ⟨rfl, rfl, C10_attribute_error_when_unguarded 0 { demoState with widgetIndex := none } rfl rfl⟩

/-! ## Claim C8 -/

/-- C8: with `length_data = 3`, one view and the single criterion
`[5, 1, 9]`, the constructed order list is `[1, 0, 2]`; moving the bound
slider to step 0 selects sample 1, and moving it to step 2 selects sample 2. -/
theorem C8_concrete_scenario :
    buildOrder [5, 1, 9] 3 = [1, 0, 2]
    ∧ (value_updated 0 demoState).map MultipleDisplay.indexClicked = .ok 1
    ∧ (value_updated 2 demoState).map MultipleDisplay.indexClicked = .ok 2 := by
  have h0 : discretize 0 = 0 := by simpa using discretize_intCast 0
  have h2 : discretize 2 = 2 := by simpa using discretize_intCast 2
  have e0 : value_updated 0 demoState = value_updated_step 0 demoState := by
    unfold value_updated
    rw [h0]
    rfl
  have e2 : value_updated 2 demoState = value_updated_step 2 demoState := by
    unfold value_updated
    rw [h2]
    rfl
  refine ⟨by decide, ?_, ?_⟩
  · rw [e0]; decide
  · rw [e2]; decide

/-! ## Claim C2: slider consistency

Infrastructure: what a successful slider push establishes, and how each
fan-out method decomposes. -/

theorem firstIdx_get {α : Type} (p : α → Bool) :
    ∀ (l : List α) (i : ℕ), firstIdx p l = some i → ∃ a, l.get? i = some a ∧ p a = true := by
  intro l
  induction l with
  | nil => intro i h; simp [firstIdx] at h
  | cons a t ih =>
    intro i h
    unfold firstIdx at h
    by_cases hp : p a
    · rw [if_pos hp] at h
      obtain rfl : (0 : ℕ) = i := by simpa using h
      exact ⟨a, rfl, hp⟩
    · rw [if_neg hp] at h
      cases hfi : firstIdx p t with
      | none => rw [hfi] at h; simp at h
      | some j =>
        rw [hfi] at h
        simp only [Option.map_some', Option.some.injEq] at h
        subst h
        obtain ⟨b, hb, hpb⟩ := ih j hfi
        exact ⟨b, by simpa using hb, hpb⟩

theorem pyIndex_ok (l : List ℤ) (x : ℤ) (p : ℕ) (h : pyIndex l x = .ok p) :
    l.get? p = some x := by
  unfold pyIndex at h
  cases hfi : firstIdx (fun a => a == x) l with
  | none => rw [hfi] at h; exact absurd h (by simp)
  | some i =>
    rw [hfi] at h
    obtain rfl : i = p := by simpa using h
    obtain ⟨a, ha, hpa⟩ := firstIdx_get _ l i hfi
    rw [ha]
    congr 1
    simpa using hpa

theorem pyListGet_natCast {α : Type} (l : List α) (p : ℕ) :
    pyListGet l (p : ℤ) = l.get? p := by
  simp [pyListGet, show ¬((p : ℤ) < 0) from by omega, Int.toNat_natCast,
    show (0 : ℤ) ≤ (p : ℤ) from by omega]

theorem pushSliders_ok (tgt : ℤ) :
    ∀ (cs : List (List ℤ)) (sls sls' : List SliderSt),
      pushSliders tgt cs sls = .ok sls' →
      sls'.length = sls.length ∧
      (∀ k, cs.length ≤ k → sls'.get? k = sls.get? k) ∧
      (∀ k, k < cs.length → k < sls.length →
        ∃ ord p, cs.get? k = some ord ∧ ord.get? p = some tgt ∧
          sls'.get? k = some ⟨(p : ℚ), fmtVal (p : ℚ)⟩) := by
  intro cs
  induction cs with
  | nil =>
    intro sls sls' h
    unfold pushSliders at h
    obtain rfl : sls = sls' := by simpa using h
    exact ⟨rfl, fun _ _ => rfl, fun k hk _ => absurd hk (by simp)⟩
  | cons c cs ih =>
    intro sls sls' h
    match sls with
    | [] =>
      unfold pushSliders at h
      obtain rfl : ([] : List SliderSt) = sls' := by simpa using h
      exact ⟨rfl, fun _ _ => rfl, fun k _ hk => absurd hk (by simp)⟩
    | sl :: rest =>
      unfold pushSliders at h
      cases hpi : pyIndex c tgt with
      | error e => rw [hpi] at h; exact absurd h (by simp)
      | ok p =>
        rw [hpi] at h
        cases hps : pushSliders tgt cs rest with
        | error e => rw [hps] at h; exact absurd h (by simp)
        | ok rest' =>
          rw [hps] at h
          obtain rfl : setVal sl (p : ℚ) :: rest' = sls' := by simpa using h
          obtain ⟨ihl, ihu, ihg⟩ := ih rest rest' hps
          refine ⟨by simpa using ihl, ?_, ?_⟩
          · intro k hk
            match k, hk with
            | k' + 1, hk => simpa using ihu k' (by simpa using hk)
          · intro k hk1 hk2
            match k with
            | 0 =>
              exact ⟨c, p, rfl, pyIndex_ok c tgt p hpi, rfl⟩
            | k' + 1 =>
              obtain ⟨ord, q, h1, h2, h3⟩ := ihg k' (by simpa using hk1) (by simpa using hk2)
              exact ⟨ord, q, h1, h2, h3⟩

theorem pushOthers_length (wi : ℕ) (tgt : ℤ) :
    ∀ (k0 : ℕ) (cs : List (List ℤ)) (sls sls' : List SliderSt),
      pushOthers wi tgt k0 cs sls = .ok sls' → sls'.length = sls.length := by
  intro k0 cs
  induction cs generalizing k0 with
  | nil =>
    intro sls sls' h
    unfold pushOthers at h
    obtain rfl : sls = sls' := by simpa using h
    rfl
  | cons c cs ih =>
    intro sls sls' h
    match sls with
    | [] =>
      unfold pushOthers at h
      obtain rfl : ([] : List SliderSt) = sls' := by simpa using h
      rfl
    | sl :: rest =>
      unfold pushOthers at h
      by_cases hk : k0 = wi
      · rw [if_pos hk] at h
        cases hps : pushOthers wi tgt (k0 + 1) cs rest with
        | error e => rw [hps] at h; exact absurd h (by simp)
        | ok rest' =>
          rw [hps] at h
          obtain rfl : sl :: rest' = sls' := by simpa using h
          simpa using ih (k0 + 1) rest rest' hps
      · rw [if_neg hk] at h
        cases hpi : pyIndex c tgt with
        | error e => rw [hpi] at h; exact absurd h (by simp)
        | ok p =>
          rw [hpi] at h
          cases hps : pushOthers wi tgt (k0 + 1) cs rest with
          | error e => rw [hps] at h; exact absurd h (by simp)
          | ok rest' =>
            rw [hps] at h
            obtain rfl : setVal sl (p : ℚ) :: rest' = sls' := by simpa using h
            simpa using ih (k0 + 1) rest rest' hps

theorem reduce_ok_fields (s t : MultipleDisplay) (h : reduce_points_intensity s = .ok t) :
    t.lengthData = s.lengthData ∧ t.criteria = s.criteria ∧
    t.indexClicked = s.indexClicked ∧ t.pointClicked = s.pointClicked ∧
    t.clicked = s.clicked ∧ t.isUpdating = false ∧ t.widgetIndex = s.widgetIndex ∧
    pushSliders s.indexClicked s.criteria s.sliders = .ok t.sliders := by
  unfold reduce_points_intensity at h
  cases hf : foldE
      (fun ds (i : ℕ) => if (i : ℤ) = s.indexClicked then .ok ds else setIntensityAll ds i (1 / 10))
      s.displays (List.range s.lengthData) with
  | error e => rw [hf] at h; exact absurd h (by simp)
  | ok ds =>
    rw [hf] at h
    cases hp : pushSliders s.indexClicked s.criteria s.sliders with
    | error e => rw [hp] at h; exact absurd h (by simp)
    | ok sls =>
      rw [hp] at h
      obtain rfl := Except.ok.inj h
      exact ⟨rfl, rfl, rfl, rfl, rfl, rfl, rfl, rfl⟩

theorem sliderInv_of_push (s t : MultipleDisplay)
    (hlen : s.criteria.length = s.sliders.length)
    (hcrit : t.criteria = s.criteria) (hidx : t.indexClicked = s.indexClicked)
    (hpush : pushSliders s.indexClicked s.criteria s.sliders = .ok t.sliders) :
    SliderInv t := by
  obtain ⟨hlen', _, hget⟩ := pushSliders_ok s.indexClicked s.criteria s.sliders t.sliders hpush
  intro k hk
  have hk1 : k < s.sliders.length := by omega
  have hk2 : k < s.criteria.length := by omega
  obtain ⟨ord, p, hord, hp, hsl⟩ := hget k hk2 hk1
  refine ⟨ord, ⟨(p : ℚ), fmtVal (p : ℚ)⟩, by rw [hcrit]; exact hord, hsl, ?_⟩
  show pyListGet ord (discretize ((p : ℕ) : ℚ)) = some t.indexClicked
  rw [discretize_natCast, pyListGet_natCast, hp, hidx]

theorem reduce_ok_sliderInv (s t : MultipleDisplay)
    (hlen : s.criteria.length = s.sliders.length)
    (h : reduce_points_intensity s = .ok t) : SliderInv t := by
  obtain ⟨-, hcrit, hidx, -, -, -, -, hpush⟩ := reduce_ok_fields s t h
  exact sliderInv_of_push s t hlen hcrit hidx hpush

theorem changeBody_ok_fields (old : ℤ) (s t : MultipleDisplay)
    (hne : s.indexClicked ≠ old) (h : changeBody old s = .ok t) :
    t.lengthData = s.lengthData ∧ t.criteria = s.criteria ∧
    t.indexClicked = s.indexClicked ∧ t.pointClicked = s.pointClicked ∧
    t.clicked = s.clicked ∧ t.isUpdating = false ∧ t.widgetIndex = s.widgetIndex ∧
    pushSliders s.indexClicked s.criteria s.sliders = .ok t.sliders ∧
    foldE (changeStep s.indexClicked old) s.displays (List.range s.lengthData) =
      .ok t.displays := by
  unfold changeBody at h
  rw [if_neg hne] at h
  cases hf : foldE (changeStep s.indexClicked old) s.displays (List.range s.lengthData) with
  | error e => rw [hf] at h; exact absurd h (by simp)
  | ok ds =>
    rw [hf] at h
    cases hp : pushSliders s.indexClicked s.criteria s.sliders with
    | error e => rw [hp] at h; exact absurd h (by simp)
    | ok sls =>
      rw [hp] at h
      obtain rfl := Except.ok.inj h
      exact ⟨rfl, rfl, rfl, rfl, rfl, rfl, rfl, rfl, rfl⟩

theorem restore_ok_fields (s t : MultipleDisplay) (h : restore_points_intensity s = .ok t) :
    t.lengthData = s.lengthData ∧ t.criteria = s.criteria ∧
    t.indexClicked = -1 ∧ t.pointClicked = none ∧
    t.clicked = s.clicked ∧ t.isUpdating = false ∧ t.widgetIndex = s.widgetIndex ∧
    t.sliders = s.sliders.map (fun sl => setVal sl 0) ∧
    foldE (fun ds i => setIntensityAll ds i 1) s.displays (List.range s.lengthData) =
      .ok t.displays := by
  unfold restore_points_intensity at h
  cases hf : foldE (fun ds i => setIntensityAll ds i 1) s.displays (List.range s.lengthData) with
  | error e => rw [hf] at h; exact absurd h (by simp)
  | ok ds =>
    rw [hf] at h
    obtain rfl := Except.ok.inj h
    exact ⟨rfl, rfl, rfl, rfl, rfl, rfl, rfl, rfl, rfl⟩

theorem changeBody_eq_restore (old : ℤ) (s : MultipleDisplay) (he : s.indexClicked = old) :
    changeBody old s = restore_points_intensity s := by
  unfold changeBody
  rw [if_pos he]

theorem change_some (o : ℤ) (s : MultipleDisplay) :
    change_points_intensity (some o) s = changeBody o s := rfl

theorem changeBody_same_ok_idx (old : ℤ) (s t : MultipleDisplay)
    (he : s.indexClicked = old) (h : changeBody old s = .ok t) : t.indexClicked = -1 := by
  rw [changeBody_eq_restore old s he] at h
  exact (restore_ok_fields s t h).2.2.1

/-- C2: after a pick-driven or slider-driven selection change — a successful
`reduce_points_intensity`, a successful `change_points_intensity` called with
an old index different from the new selection, or a successful
`value_updated` that leaves an active selection — every bound slider's
position maps via its order list back to the selected sample
(`order[position] = index_clicked`).  The coordinator pairs one criterion per
slider, whence the length hypothesis. -/
theorem C2_slider_consistency (s t : MultipleDisplay)
    (hlen : s.criteria.length = s.sliders.length) :
    (reduce_points_intensity s = .ok t → SliderInv t)
    ∧ (∀ old, old ≠ s.indexClicked → change_points_intensity (some old) s = .ok t → SliderInv t)
    ∧ (∀ v, s.isUpdating = false → t.indexClicked ≠ -1 → value_updated v s = .ok t →
        SliderInv t) := by
  refine ⟨fun h => reduce_ok_sliderInv s t hlen h, ?_, ?_⟩
  · intro old hne h
    have h' : changeBody old s = .ok t := h
    obtain ⟨-, hcrit, hidx, -, -, -, -, hpush, -⟩ :=
      changeBody_ok_fields old s t (fun hc => hne hc.symm) h'
    exact sliderInv_of_push s t hlen hcrit hidx hpush
  · intro v hguard hidxne h
    unfold value_updated at h
    rw [hguard, if_neg Bool.false_ne_true] at h
    simp only [value_updated_step] at h
    split at h
    · exact absurd h (by simp)
    · next wi hw =>
      split at h
      · exact absurd h (by simp)
      · next order hord =>
        split at h
        · exact absurd h (by simp)
        · next newIdx hni =>
          split at h
          · exact absurd h (by simp)
          · next sl hsl =>
            split at h
            · exact absurd h (by simp)
            · next sliders2 hpo =>
              have hlen2 : sliders2.length = s.sliders.length := by
                have := pushOthers_length wi newIdx 0 s.criteria
                  (s.sliders.set wi { sl with text := toString (discretize v) }) sliders2 hpo
                simpa using this
              by_cases hold : s.indexClicked = -1
              · rw [if_pos hold] at h
                refine reduce_ok_sliderInv _ t ?_ h
                show s.criteria.length = sliders2.length
                rw [hlen2]
                exact hlen
              · rw [if_neg hold] at h
                by_cases hsame : newIdx = s.indexClicked
                · rw [if_pos hsame] at h
                  rw [change_some] at h
                  exact absurd
                    (changeBody_same_ok_idx s.indexClicked _ t (by simpa using hsame) h) hidxne
                · rw [if_neg hsame] at h
                  rw [change_some] at h
                  obtain ⟨-, hcrit, hidx, -, -, -, -, hpush, -⟩ :=
                    changeBody_ok_fields s.indexClicked _ t (by simpa using hsame) h
                  refine sliderInv_of_push _ t ?_ hcrit hidx hpush
                  show s.criteria.length = sliders2.length
                  rw [hlen2]
                  exact hlen

/-- Witness for C2: the reduce branch at a concrete post-pick state. -/
theorem C2_slider_consistency_witness :
    demoPicked.criteria.length = demoPicked.sliders.length
    ∧ reduce_points_intensity demoPicked =
        .ok (okState demoPicked (reduce_points_intensity demoPicked))
    ∧ SliderInv (okState demoPicked (reduce_points_intensity demoPicked)) :=
  ⟨rfl, rfl, (C2_slider_consistency demoPicked
      (okState demoPicked (reduce_points_intensity demoPicked)) rfl).1 rfl⟩





theorem setRowAlpha_ok (d d' : Display) (i : ℕ) (v : ℚ) (h : setRowAlpha d i v = .ok d') :
    i < d.artists.length ∧
    d'.nSamples = d.nSamples ∧ d'.axes = d.axes ∧ d'.artists = d.artists ∧
    ∀ r, d'.alphas.get? r =
      if r = i then (d.alphas.get? r).map (fun row => row.map (fun _ => v))
      else d.alphas.get? r := by
  unfold setRowAlpha at h
  by_cases hi : i < d.artists.length
  · rw [if_pos hi] at h
    obtain rfl := Except.ok.inj h
    refine ⟨hi, rfl, rfl, rfl, ?_⟩
    intro r
    by_cases hr : r = i
    · subst hr
      rw [if_pos rfl]
      show (d.alphas.set r (List.map (fun _ => v) (d.alphas.getD r []))).get? r =
        (d.alphas.get? r).map (fun row => row.map (fun _ => v))
      by_cases hlt : r < d.alphas.length
      · rw [List.get?_eq_getElem?, List.getElem?_set_eq_of_lt _ hlt]
        have hg : d.alphas.get? r = some (d.alphas.getD r []) := by
          rw [List.getD_eq_getD_get?]
          cases hg : d.alphas.get? r with
          | none => exact absurd (List.get?_eq_none.mp hg) (by omega)
          | some row => rfl
        rw [hg]
        rfl
      · rw [List.get?_eq_none.mpr (by simp [Nat.le_of_not_lt hlt]),
          List.get?_eq_none.mpr (by simpa using Nat.le_of_not_lt hlt)]
        rfl
    · rw [if_neg hr]
      show (d.alphas.set i (List.map (fun _ => v) (d.alphas.getD i []))).get? r = d.alphas.get? r
      rw [List.get?_eq_getElem?, List.getElem?_set_ne (fun hc => hr hc.symm),
        ← List.get?_eq_getElem?]
  · rw [if_neg hi] at h
    exact absurd h (by simp)

theorem mapE_get {α β : Type} (f : α → Except PyErr β) :
    ∀ (l : List α) (l' : List β), mapE f l = .ok l' →
      l'.length = l.length ∧
      ∀ k a, l.get? k = some a → ∃ b, l'.get? k = some b ∧ f a = .ok b := by
  intro l
  induction l with
  | nil =>
    intro l' h
    obtain rfl : ([] : List β) = l' := by simpa [mapE] using h
    exact ⟨rfl, fun k a ha => by simp at ha⟩
  | cons a t ih =>
    intro l' h
    unfold mapE at h
    cases hfa : f a with
    | error e => rw [hfa] at h; exact absurd h (by simp)
    | ok b =>
      rw [hfa] at h
      cases hft : mapE f t with
      | error e => rw [hft] at h; exact absurd h (by simp)
      | ok bs =>
        rw [hft] at h
        obtain rfl : b :: bs = l' := by simpa using h
        obtain ⟨ihl, ihg⟩ := ih bs hft
        refine ⟨by simpa using ihl, ?_⟩
        intro k x hx
        match k with
        | 0 =>
          obtain rfl : a = x := by simpa using hx
          exact ⟨b, rfl, hfa⟩
        | k' + 1 =>
          obtain ⟨b', hb', hfb'⟩ := ihg k' x (by simpa using hx)
          exact ⟨b', by simpa using hb', hfb'⟩

theorem stepSpec_setIntensityAll (v : ℚ) :
    StepSpec (fun ds i => setIntensityAll ds i v) (fun _ => some v) := by
  intro ds i ds' h
  obtain ⟨hlen, hget⟩ := mapE_get _ ds ds' h
  refine ⟨hlen, ?_⟩
  intro k d d' hd hd'
  obtain ⟨b, hb, hfb⟩ := hget k d hd
  obtain rfl : b = d' := by rw [hb] at hd'; exact Option.some.inj hd'
  obtain ⟨hi, h1, h2, h3, h4⟩ := setRowAlpha_ok d b i v hfb
  refine ⟨h1, h2, h3, fun habs => absurd habs (by simp), ?_⟩
  intro w hw r
  obtain rfl : v = w := by simpa using hw
  rw [h4 r]
  by_cases hr : r = i
  · rw [if_pos hr, if_pos (show r = i ∧ d.artists.length ≠ 0 from ⟨hr, by omega⟩)]
  · rw [if_neg hr, if_neg (show ¬(r = i ∧ d.artists.length ≠ 0) from by tauto)]

theorem stepSpec_changeDisplayIntensity (v : ℚ) :
    StepSpec (fun ds i => change_display_intensity ds i v) (fun _ => some v) := by
  intro ds i ds' h
  obtain ⟨hlen, hget⟩ := mapE_get _ ds ds' h
  refine ⟨hlen, ?_⟩
  intro k d d' hd hd'
  obtain ⟨b, hb, hfb⟩ := hget k d hd
  obtain rfl : b = d' := by rw [hb] at hd'; exact Option.some.inj hd'
  by_cases hz : d.artists.length = 0
  · rw [if_pos hz] at hfb
    obtain rfl : d = b := by simpa using hfb
    refine ⟨rfl, rfl, rfl, fun _ r => rfl, ?_⟩
    intro w hw r
    rw [if_neg (show ¬(r = i ∧ d.artists.length ≠ 0) from by tauto)]
  · rw [if_neg hz] at hfb
    obtain ⟨hi, h1, h2, h3, h4⟩ := setRowAlpha_ok d b i v hfb
    refine ⟨h1, h2, h3, fun habs => absurd habs (by simp), ?_⟩
    intro w hw r
    obtain rfl : v = w := by simpa using hw
    rw [h4 r]
    by_cases hr : r = i
    · rw [if_pos hr, if_pos (show r = i ∧ d.artists.length ≠ 0 from ⟨hr, hz⟩)]
    · rw [if_neg hr, if_neg (show ¬(r = i ∧ d.artists.length ≠ 0) from by tauto)]

theorem stepSpec_reduceStep (target : ℤ) :
    StepSpec
      (fun ds (i : ℕ) => if (i : ℤ) = target then .ok ds else setIntensityAll ds i (1 / 10))
      (fun i => if (i : ℤ) = target then none else some (1 / 10)) := by
  intro ds i ds' h
  beta_reduce at h
  by_cases hi : (i : ℤ) = target
  · rw [if_pos hi] at h
    obtain rfl := Except.ok.inj h
    refine ⟨rfl, ?_⟩
    intro k d d' hd hd'
    obtain rfl : d = d' := by rw [hd] at hd'; exact Option.some.inj hd'
    refine ⟨rfl, rfl, rfl, fun _ r => rfl, ?_⟩
    intro v hv
    beta_reduce at hv
    rw [if_pos hi] at hv
    exact absurd hv (by simp)
  · rw [if_neg hi] at h
    obtain ⟨hlen, hget⟩ := stepSpec_setIntensityAll (1 / 10) ds i ds' h
    refine ⟨hlen, ?_⟩
    intro k d d' hd hd'
    obtain ⟨h1, h2, h3, _, h5⟩ := hget k d d' hd hd'
    refine ⟨h1, h2, h3, ?_, ?_⟩
    · intro habs
      beta_reduce at habs
      rw [if_neg hi] at habs
      exact absurd habs (by simp)
    · intro v hv
      beta_reduce at hv
      rw [if_neg hi] at hv
      exact h5 v hv

theorem stepSpec_changeStep (new old : ℤ) :
    StepSpec (changeStep new old)
      (fun i => if (i : ℤ) = new then some 1
                else if (i : ℤ) = old then some (1 / 10) else none) := by
  intro ds i ds' h
  unfold changeStep at h
  by_cases h1 : (i : ℤ) = new
  · rw [if_pos h1] at h
    obtain ⟨hlen, hget⟩ := stepSpec_changeDisplayIntensity 1 ds i ds' h
    refine ⟨hlen, ?_⟩
    intro k d d' hd hd'
    obtain ⟨a1, a2, a3, _, a5⟩ := hget k d d' hd hd'
    refine ⟨a1, a2, a3, ?_, ?_⟩
    · intro habs
      beta_reduce at habs
      rw [if_pos h1] at habs
      exact absurd habs (by simp)
    · intro v hv
      beta_reduce at hv
      rw [if_pos h1] at hv
      obtain rfl : (1 : ℚ) = v := by simpa using hv
      exact a5 1 rfl
  · rw [if_neg h1] at h
    by_cases h2 : (i : ℤ) = old
    · rw [if_pos h2] at h
      obtain ⟨hlen, hget⟩ := stepSpec_changeDisplayIntensity (1 / 10) ds i ds' h
      refine ⟨hlen, ?_⟩
      intro k d d' hd hd'
      obtain ⟨a1, a2, a3, _, a5⟩ := hget k d d' hd hd'
      refine ⟨a1, a2, a3, ?_, ?_⟩
      · intro habs
        beta_reduce at habs
        rw [if_neg h1, if_pos h2] at habs
        exact absurd habs (by simp)
      · intro v hv
        beta_reduce at hv
        rw [if_neg h1, if_pos h2] at hv
        obtain rfl : (1 / 10 : ℚ) = v := by simpa using hv
        exact a5 (1 / 10) rfl
    · rw [if_neg h2] at h
      obtain rfl := Except.ok.inj h
      refine ⟨rfl, ?_⟩
      intro k d d' hd hd'
      obtain rfl : d = d' := by rw [hd] at hd'; exact Option.some.inj hd'
      refine ⟨rfl, rfl, rfl, fun _ r => rfl, ?_⟩
      intro v hv
      beta_reduce at hv
      rw [if_neg h1, if_neg h2] at hv
      exact absurd hv (by simp)



theorem foldE_rows {step : List Display → ℕ → Except PyErr (List Display)}
    {f : ℕ → Option ℚ} (hspec : StepSpec step f) :
    ∀ (L : List ℕ) (ds ds' : List Display), foldE step ds L = .ok ds' →
      ds'.length = ds.length ∧
      ∀ k d d', ds.get? k = some d → ds'.get? k = some d' →
        d'.nSamples = d.nSamples ∧ d'.axes = d.axes ∧ d'.artists = d.artists ∧
        (∀ r, (r ∉ L ∨ f r = none) → d'.alphas.get? r = d.alphas.get? r) ∧
        (d.artists.length = 0 → ∀ r, d'.alphas.get? r = d.alphas.get? r) ∧
        (∀ r v, r ∈ L → f r = some v → d.artists.length ≠ 0 →
          d'.alphas.get? r = (d.alphas.get? r).map (fun row => row.map (fun _ => v))) := by
  intro L
  induction L with
  | nil =>
    intro ds ds' h
    obtain rfl : ds = ds' := by simpa [foldE] using h
    refine ⟨rfl, fun k d d' hd hd' => ?_⟩
    obtain rfl : d = d' := by rw [hd] at hd'; exact Option.some.inj hd'
    exact ⟨rfl, rfl, rfl, fun _ _ => rfl, fun _ _ => rfl, fun r v hr => absurd hr (by simp)⟩
  | cons i L ih =>
    intro ds ds' h
    unfold foldE at h
    cases hs : step ds i with
    | error e => rw [hs] at h; exact absurd h (by simp)
    | ok ds1 =>
      rw [hs] at h
      obtain ⟨slen, sget⟩ := hspec ds i ds1 hs
      obtain ⟨ilen, iget⟩ := ih ds1 ds' h
      refine ⟨by omega, ?_⟩
      intro k d d' hd hd'
      have hk : k < ds.length := by
        by_contra hc
        rw [List.get?_eq_none.mpr (by omega)] at hd
        exact absurd hd (by simp)
      obtain ⟨d1, hd1⟩ : ∃ d1, ds1.get? k = some d1 := by
        have hk1 : k < ds1.length := by omega
        cases hg : ds1.get? k with
        | none => exact absurd (List.get?_eq_none.mp hg) (by omega)
        | some x => exact ⟨x, rfl⟩
      obtain ⟨s1, s2, s3, snone, ssome⟩ := sget k d d1 hd hd1
      obtain ⟨i1, i2, i3, inone, izero, isome⟩ := iget k d1 d' hd1 hd'
      refine ⟨by rw [i1, s1], by rw [i2, s2], by rw [i3, s3], ?_, ?_, ?_⟩
      · intro r hr
        have hr' : r ∉ L ∨ f r = none := by
          rcases hr with hr | hr
          · exact Or.inl (fun hc => hr (List.mem_cons_of_mem i hc))
          · exact Or.inr hr
        rw [inone r hr']
        cases hfi : f i with
        | none => exact snone hfi r
        | some w =>
          rw [ssome w hfi r]
          rcases hr with hr | hr
          · rw [if_neg (show ¬(r = i ∧ d.artists.length ≠ 0) from by
              rintro ⟨rfl, -⟩
              exact hr (List.mem_cons_self r L))]
          · by_cases hri : r = i
            · exact absurd (hri ▸ hr) (by rw [hfi]; simp)
            · rw [if_neg (by tauto)]
      · intro hz r
        have hz1 : d1.artists.length = 0 := by rw [s3]; exact hz
        rw [izero hz1 r]
        cases hfi : f i with
        | none => exact snone hfi r
        | some w => rw [ssome w hfi r, if_neg (by tauto)]
      · intro r v hrL hfr hnz
        have hnz1 : d1.artists.length ≠ 0 := by rw [s3]; exact hnz
        rcases List.mem_cons.mp hrL with hri | hrL'
        · by_cases hrL2 : r ∈ L
          · rw [isome r v hrL2 hfr hnz1]
            rw [ssome v (hri ▸ hfr) r]
            rw [if_pos ⟨hri, hnz⟩]
            cases d.alphas.get? r <;> simp [List.map_map]
          · rw [inone r (Or.inl hrL2)]
            rw [ssome v (hri ▸ hfr) r, if_pos ⟨hri, hnz⟩]
        · rw [isome r v hrL' hfr hnz1]
          cases hfi : f i with
          | none => rw [snone hfi r]
          | some w =>
            rw [ssome w hfi r]
            by_cases hri : r = i
            · rw [if_pos ⟨hri, hnz⟩]
              obtain rfl : w = v := by
                rw [← hri] at hfi
                rw [hfi] at hfr
                exact Option.some.inj hfr
              cases d.alphas.get? r <;> simp [List.map_map]
            · rw [if_neg (by tauto)]



theorem firstIdx_eq_none_of_all {α : Type} (p : α → Bool) :
    ∀ l : List α, (∀ b ∈ l, p b = false) → firstIdx p l = none := by
  intro l
  induction l with
  | nil => intro _; rfl
  | cons a t ih =>
    intro h
    unfold firstIdx
    rw [if_neg (by rw [h a (by simp)]; simp), ih (fun b hb => h b (by simp [hb]))]
    rfl

theorem firstIdx_intro {α : Type} (p : α → Bool) :
    ∀ (l : List α) (i : ℕ) (a : α), l.get? i = some a → p a = true →
      (∀ r, r < i → ∀ b, l.get? r = some b → p b = false) → firstIdx p l = some i := by
  intro l
  induction l with
  | nil => intro i a ha _ _; simp at ha
  | cons x t ih =>
    intro i a ha hpa hbefore
    match i with
    | 0 =>
      obtain rfl : x = a := by simpa using ha
      unfold firstIdx
      rw [if_pos hpa]
    | i' + 1 =>
      have hx : p x = false := hbefore 0 (by omega) x rfl
      unfold firstIdx
      rw [if_neg (by rw [hx]; simp)]
      rw [ih i' a (by simpa using ha) hpa
        (fun r hr b hb => hbefore (r + 1) (by omega) b (by simpa using hb))]
      rfl

theorem firstIdx_of_mem {α : Type} (p : α → Bool) :
    ∀ (l : List α) (b : α), b ∈ l → p b = true → ∃ i, firstIdx p l = some i := by
  intro l
  induction l with
  | nil => intro b hb; simp at hb
  | cons a t ih =>
    intro b hb hpb
    unfold firstIdx
    by_cases hpa : p a
    · exact ⟨0, by rw [if_pos hpa]⟩
    · rcases List.mem_cons.mp hb with rfl | hbt
      · exact absurd hpb (by simpa using hpa)
      · obtain ⟨i, hi⟩ := ih b hbt hpb
        exact ⟨i + 1, by rw [if_neg hpa, hi]; rfl⟩

theorem firstIdx_nodup {α : Type} [DecidableEq α] (l : List α) (j : ℕ) (x : α)
    (hnd : l.Nodup) (hj : l.get? j = some x) : firstIdx (fun a => a == x) l = some j := by
  refine firstIdx_intro _ l j x hj (by simp) ?_
  intro r hr b hb
  by_cases hbx : b = x
  · subst hbx
    have : r = j := by
      refine List.get?_inj ?_ hnd (by rw [hb, hj])
      by_contra hc
      rw [List.get?_eq_none.mpr (by omega)] at hb
      exact absurd hb (by simp)
    omega
  · simpa using hbx

theorem nodup_join_unique {α : Type} {L : List (List α)} (h : L.flatten.Nodup)
    {i r : ℕ} {ri rr : List α} (hi : L.get? i = some ri) (hr : L.get? r = some rr)
    (hne : i ≠ r) {a : α} (ha : a ∈ ri) : a ∉ rr := by
  obtain ⟨-, hpw⟩ := List.nodup_join.mp h
  have hil : i < L.length := by
    by_contra hc
    rw [List.get?_eq_none.mpr (by omega)] at hi
    exact absurd hi (by simp)
  have hrl : r < L.length := by
    by_contra hc
    rw [List.get?_eq_none.mpr (by omega)] at hr
    exact absurd hr (by simp)
  have hgi : L.get ⟨i, hil⟩ = ri := by
    have := List.get?_eq_get hil
    rw [hi] at this
    exact (Option.some.inj this).symm
  have hgr : L.get ⟨r, hrl⟩ = rr := by
    have := List.get?_eq_get hrl
    rw [hr] at this
    exact (Option.some.inj this).symm
  rcases Nat.lt_or_ge i r with hlt | hge
  · have := (List.pairwise_iff_get.mp hpw) ⟨i, hil⟩ ⟨r, hrl⟩ hlt
    rw [hgi, hgr] at this
    exact fun hc => this ha hc
  · have hlt2 : r < i := by omega
    have := (List.pairwise_iff_get.mp hpw) ⟨r, hrl⟩ ⟨i, hil⟩ hlt2
    rw [hgi, hgr] at this
    exact fun hc => this.symm ha hc



theorem resolveIndex_finds (pc : PArtist) :
    ∀ (ds : List Display) (di : ℕ) (d : Display) (i j : ℕ) (row : List PArtist),
      ds.get? di = some d →
      d.artists.get? i = some row → row.get? j = some pc →
      d.axes.get? j = some pc.axesId →
      (ds.flatMap Display.axes).Nodup →
      ((ds.map (fun d => d.artists.flatten)).flatten).Nodup →
      resolveIndex pc ds = .ok (some i) := by
  intro ds
  induction ds with
  | nil => intro di d i j row hd; simp at hd
  | cons d0 rest ih =>
    intro di d i j row hd hrow hjrow hax haxnd hartnd
    match di with
    | 0 =>
      obtain rfl : d0 = d := by simpa using hd
      unfold resolveIndex
      have haxd : d0.axes.Nodup := by
        have : (d0.axes ++ rest.flatMap Display.axes).Nodup := by
          simpa [List.flatMap_cons] using haxnd
        exact this.of_append_left
      rw [firstIdx_nodup d0.axes j pc.axesId haxd hax]
      show (match (if d0.axes.length = 1 then firstIdx (fun row => row.contains pc) d0.artists
          else firstIdx (fun row => row.get? j == some pc) d0.artists : Option ℕ) with
        | none => (Except.error (PyErr.indexError "np.where") : Except PyErr (Option ℕ))
        | some j => Except.ok (some j)) = Except.ok (some i)
      have hartd : d0.artists.flatten.Nodup := by
        have : (d0.artists.flatten ++ (rest.map (fun d => d.artists.flatten)).flatten).Nodup := by
          simpa using hartnd
        exact this.of_append_left
      have hpcrow : pc ∈ row := List.get?_mem hjrow
      by_cases h1 : d0.axes.length = 1
      · rw [if_pos h1]
        rw [firstIdx_intro _ d0.artists i row hrow (by simpa using hpcrow) ?_]
        · intro r hr b hb
          have : pc ∉ b := nodup_join_unique hartd hrow hb (by omega) hpcrow
          simpa using this
      · rw [if_neg h1]
        rw [firstIdx_intro _ d0.artists i row hrow
          (by show (row.get? j == some pc) = true; simpa using hjrow) ?_]
        · intro r hr b hb
          have hnin : pc ∉ b := nodup_join_unique hartd hrow hb (by omega) hpcrow
          show (b.get? j == some pc) = false
          by_cases hc : b.get? j = some pc
          · exact absurd (List.get?_mem hc) hnin
          · simpa using hc
    | di' + 1 =>
      have hd' : rest.get? di' = some d := by simpa using hd
      unfold resolveIndex
      have hnone : firstIdx (fun a => a == pc.axesId) d0.axes = none := by
        refine firstIdx_eq_none_of_all _ d0.axes ?_
        intro b hb
        have hdisj : d0.axes.Disjoint (rest.flatMap Display.axes) := by
          refine List.disjoint_of_nodup_append ?_
          simpa [List.flatMap_cons] using haxnd
        have hmem : pc.axesId ∈ rest.flatMap Display.axes := by
          refine List.mem_flatMap.mpr ⟨d, List.get?_mem hd', List.get?_mem hax⟩
        by_cases hbx : b = pc.axesId
        · exact absurd (hbx ▸ hmem) (fun hc => hdisj hb hc)
        · simpa using hbx
      rw [hnone]
      refine ih di' d i j row hd' hrow hjrow hax ?_ ?_
      · have : (d0.axes ++ rest.flatMap Display.axes).Nodup := by
          simpa [List.flatMap_cons] using haxnd
        exact this.of_append_right
      · have : (d0.artists.flatten ++ (rest.map (fun d => d.artists.flatten)).flatten).Nodup := by
          simpa using hartnd
        exact this.of_append_right



theorem pyIndex_succeeds (l : List ℤ) (x : ℤ) (h : x ∈ l) : ∃ p, pyIndex l x = .ok p := by
  obtain ⟨i, hi⟩ := firstIdx_of_mem (fun a => a == x) l x h (by simp)
  exact ⟨i, by unfold pyIndex; rw [hi]⟩

theorem pushSliders_succeeds (x : ℤ) :
    ∀ (cs : List (List ℤ)) (sls : List SliderSt), (∀ c ∈ cs, x ∈ c) →
      ∃ out, pushSliders x cs sls = .ok out := by
  intro cs
  induction cs with
  | nil => intro sls _; exact ⟨sls, by cases sls <;> rfl⟩
  | cons c cs ih =>
    intro sls hmem
    match sls with
    | [] => exact ⟨[], rfl⟩
    | sl :: rest =>
      obtain ⟨p, hp⟩ := pyIndex_succeeds c x (hmem c (by simp))
      obtain ⟨out, hout⟩ := ih rest (fun c' hc' => hmem c' (by simp [hc']))
      refine ⟨setVal sl (p : ℚ) :: out, ?_⟩
      unfold pushSliders
      rw [hp, hout]

theorem foldE_ok_of {σ : Type} (step : σ → ℕ → Except PyErr σ) (P : σ → Prop) :
    ∀ (L : List ℕ) (x : σ), P x →
      (∀ y i, P y → i ∈ L → ∃ z, step y i = .ok z ∧ P z) →
      ∃ y, foldE step x L = .ok y ∧ P y := by
  intro L
  induction L with
  | nil => intro x hx _; exact ⟨x, rfl, hx⟩
  | cons i L ih =>
    intro x hx hstep
    obtain ⟨y, hy, hPy⟩ := hstep x i hx (by simp)
    obtain ⟨z, hz, hPz⟩ := ih y hPy (fun y' i' hP hi' => hstep y' i' hP (by simp [hi']))
    refine ⟨z, ?_, hPz⟩
    unfold foldE
    rw [hy]
    exact hz

theorem setIntensityAll_wf (n i : ℕ) (v : ℚ) (hi : i < n) :
    ∀ ds, DisplaysWF n ds → ∃ ds', setIntensityAll ds i v = .ok ds' ∧ DisplaysWF n ds' := by
  intro ds
  induction ds with
  | nil => exact fun _ => ⟨[], rfl, by intro d hd; simp at hd⟩
  | cons d rest ih =>
    intro hWF
    obtain ⟨hart, halp⟩ := hWF d (by simp)
    have hrest : DisplaysWF n rest := fun x hx => hWF x (by simp [hx])
    obtain ⟨rest', hrest', hWFrest'⟩ := ih hrest
    refine ⟨{ d with alphas := d.alphas.set i ((d.alphas.getD i []).map (fun _ => v)) } :: rest',
      ?_, ?_⟩
    · show mapE (fun d => setRowAlpha d i v) (d :: rest) = _
      unfold mapE
      rw [show setRowAlpha d i v =
        .ok { d with alphas := d.alphas.set i ((d.alphas.getD i []).map (fun _ => v)) } from by
          unfold setRowAlpha; rw [if_pos (by omega)]]
      have : mapE (fun d => setRowAlpha d i v) rest = .ok rest' := hrest'
      rw [this]
    · intro x hx
      rcases List.mem_cons.mp hx with rfl | hx
      · exact ⟨hart, by simpa using halp⟩
      · exact hWFrest' x hx

theorem reduce_succeeds (s : MultipleDisplay)
    (hWF : DisplaysWF s.lengthData s.displays)
    (hord : ∀ c ∈ s.criteria, s.indexClicked ∈ c) :
    ∃ t, reduce_points_intensity s = .ok t ∧ DisplaysWF s.lengthData t.displays := by
  have hstep : ∀ (y : List Display) (i : ℕ), DisplaysWF s.lengthData y →
      i ∈ List.range s.lengthData →
      ∃ z, (fun ds (i : ℕ) =>
          if (i : ℤ) = s.indexClicked then .ok ds else setIntensityAll ds i (1 / 10)) y i = .ok z
        ∧ DisplaysWF s.lengthData z := by
    intro y i hP hiL
    by_cases hc : (i : ℤ) = s.indexClicked
    · exact ⟨y, by beta_reduce; rw [if_pos hc], hP⟩
    · obtain ⟨z, hz, hPz⟩ :=
        setIntensityAll_wf s.lengthData i (1 / 10) (List.mem_range.mp hiL) y hP
      exact ⟨z, by beta_reduce; rw [if_neg hc]; exact hz, hPz⟩
  obtain ⟨ds1, hds1, hWF1⟩ := foldE_ok_of
    (fun ds (i : ℕ) => if (i : ℤ) = s.indexClicked then .ok ds else setIntensityAll ds i (1 / 10))
    (DisplaysWF s.lengthData) (List.range s.lengthData) s.displays hWF hstep
  obtain ⟨sls1, hsls1⟩ := pushSliders_succeeds s.indexClicked s.criteria s.sliders hord
  refine ⟨{ s with displays := ds1, sliders := sls1, isUpdating := false }, ?_, hWF1⟩
  unfold reduce_points_intensity
  rw [hds1, hsls1]

theorem restore_succeeds (s : MultipleDisplay)
    (hWF : DisplaysWF s.lengthData s.displays) :
    ∃ t, restore_points_intensity s = .ok t ∧ DisplaysWF s.lengthData t.displays := by
  have hstep : ∀ (y : List Display) (i : ℕ), DisplaysWF s.lengthData y →
      i ∈ List.range s.lengthData →
      ∃ z, setIntensityAll y i 1 = .ok z ∧ DisplaysWF s.lengthData z := by
    intro y i hP hiL
    exact setIntensityAll_wf s.lengthData i 1 (List.mem_range.mp hiL) y hP
  obtain ⟨ds1, hds1, hWF1⟩ := foldE_ok_of
    (fun ds i => setIntensityAll ds i 1)
    (DisplaysWF s.lengthData) (List.range s.lengthData) s.displays hWF hstep
  refine ⟨{ s with
      displays := ds1
      pointClicked := none
      indexClicked := -1
      sliders := s.sliders.map (fun sl => setVal sl 0)
      isUpdating := false }, ?_, hWF1⟩
  unfold restore_points_intensity
  rw [hds1]



theorem restore_allAlphasOne (s t : MultipleDisplay)
    (hWF : DisplaysWF s.lengthData s.displays)
    (h : restore_points_intensity s = .ok t) : AllAlphasOne t := by
  obtain ⟨hl, hcrit, hidx, hpc, hcl, hupd, hwid, hsl, hfold⟩ := restore_ok_fields s t h
  obtain ⟨hlen2, hget⟩ := foldE_rows (stepSpec_setIntensityAll 1) (List.range s.lengthData)
    s.displays t.displays hfold
  intro d' hd' row hrow x hx
  obtain ⟨k, hk⟩ := List.mem_iff_get?.mp hd'
  obtain ⟨d, hd⟩ : ∃ d, s.displays.get? k = some d := by
    have hklt : k < s.displays.length := by
      by_contra hc
      rw [List.get?_eq_none.mpr (by omega)] at hk
      exact absurd hk (by simp)
    cases hg : s.displays.get? k with
    | none => exact absurd (List.get?_eq_none.mp hg) (by omega)
    | some x => exact ⟨x, rfl⟩
  obtain ⟨f1, f2, f3, funch, fzero, fset⟩ := hget k d d' hd hk
  obtain ⟨hart, halp⟩ := hWF d (List.get?_mem hd)
  obtain ⟨r, hr⟩ := List.mem_iff_get?.mp hrow
  by_cases hrn : r < s.lengthData
  · have := fset r 1 (List.mem_range.mpr hrn) rfl (by omega)
    rw [hr] at this
    cases hg : d.alphas.get? r with
    | none => rw [hg] at this; exact absurd this (by simp)
    | some row0 =>
      rw [hg] at this
      obtain rfl : row0.map (fun _ => (1 : ℚ)) = row := by simpa using this.symm
      obtain ⟨y, hy, hyx⟩ := List.mem_map.mp hx
      exact hyx.symm
  · have := funch r (Or.inl (fun hc => hrn (List.mem_range.mp hc)))
    rw [hr] at this
    have hrlt : r < d.alphas.length := by
      by_contra hc
      rw [List.get?_eq_none.mpr (by omega)] at this
      exact absurd this (by simp)
    omega

theorem update_index_picked_eq (s : MultipleDisplay) (a : PArtist) (i : ℕ)
    (hres : resolveIndex a s.displays = .ok (some i)) :
    update_index_display_picked { s with pointClicked := some a } =
      .ok { s with pointClicked := some a, indexClicked := (i : ℤ) } := by
  unfold update_index_display_picked
  show (match resolveIndex a s.displays with
    | .error e => (.error e : Except PyErr MultipleDisplay)
    | .ok none => .ok { s with pointClicked := some a }
    | .ok (some j) => .ok { s with pointClicked := some a, indexClicked := (j : ℤ) }) = _
  rw [hres]



/-- C4: from the neutral state (no prior selection, `clicked` false), picking
sample `i`'s artist and then picking the same artist again restores every
sample's artists in every view to opacity 1, clears the selection index to
-1 and forgets the clicked artist.  The hypotheses say the picked artist is
sample `i`'s artist in one well-formed display (axes and artists globally
distinct, one artist row per sample) and that every slider's order list
covers all samples, as `add_slider` builds for duplicate-free criteria. -/
theorem C4_pick_roundtrip (s : MultipleDisplay) (di i j : ℕ) (a : PArtist) (d : Display)
    (row : List PArtist)
    (hWF : DisplaysWF s.lengthData s.displays)
    (hclick : s.clicked = false) (hpc : s.pointClicked = none)
    (horders : ∀ ord ∈ s.criteria, ∀ m : ℕ, m < s.lengthData → (m : ℤ) ∈ ord)
    (hd : s.displays.get? di = some d)
    (hrow : d.artists.get? i = some row)
    (hja : row.get? j = some a)
    (hax : d.axes.get? j = some a.axesId)
    (haxnd : (s.displays.flatMap Display.axes).Nodup)
    (hartnd : ((s.displays.map (fun dd => dd.artists.flatten)).flatten).Nodup) :
    ∃ t u, pick a s = .ok t ∧ pick a t = .ok u
      ∧ AllAlphasOne u ∧ u.indexClicked = -1 ∧ u.pointClicked = none := by
  obtain ⟨n, dsS, critS, slsS, pcS, idxS, ckS, updS, wiS⟩ := s
  obtain rfl : ckS = false := hclick
  obtain rfl : pcS = none := hpc
  simp only at hWF horders hd ⊢
  have hmemd : d ∈ dsS := List.get?_mem hd
  have hart : d.artists.length = n := (hWF d hmemd).1
  have hi : i < n := by
    rw [← hart]
    by_contra hc
    rw [List.get?_eq_none.mpr (by omega)] at hrow
    exact absurd hrow (by simp)
  have hres : resolveIndex a dsS = .ok (some i) :=
    resolveIndex_finds a dsS di d i j row hd hrow hja hax haxnd hartnd
  have hupd := update_index_picked_eq
    ⟨n, dsS, critS, slsS, none, idxS, false, updS, wiS⟩ a i hres
  obtain ⟨t, hred, hWFt⟩ := reduce_succeeds
    ⟨n, dsS, critS, slsS, some a, (i : ℤ), false, updS, wiS⟩ hWF
    (fun c hc => horders c hc i hi)
  have hpick1 : pick a ⟨n, dsS, critS, slsS, none, idxS, false, updS, wiS⟩ = .ok t := by
    unfold pick
    rw [if_neg Bool.false_ne_true]
    show (match update_index_display_picked
        ⟨n, dsS, critS, slsS, some a, idxS, false, updS, wiS⟩ with
      | .error e => (.error e : Except PyErr MultipleDisplay)
      | .ok s1 => reduce_points_intensity s1) = .ok t
    rw [show update_index_display_picked ⟨n, dsS, critS, slsS, some a, idxS, false, updS, wiS⟩ =
      .ok ⟨n, dsS, critS, slsS, some a, (i : ℤ), false, updS, wiS⟩ from hupd]
    exact hred
  obtain ⟨htl, -, -, htpc, htcl, -, -, -⟩ :=
    reduce_ok_fields ⟨n, dsS, critS, slsS, some a, (i : ℤ), false, updS, wiS⟩ t hred
  have htcl' : t.clicked = false := htcl
  have htpc' : t.pointClicked = some a := htpc
  have htl' : t.lengthData = n := htl
  obtain ⟨u, hrest, hWFu⟩ := restore_succeeds t (by rw [htl']; exact hWFt)
  have hpick2 : pick a t = .ok u := by
    simp only [pick, htcl', htpc', Bool.false_eq_true, if_false]
    exact hrest
  have hAll : AllAlphasOne u := restore_allAlphasOne t u (by rw [htl']; exact hWFt) hrest
  obtain ⟨-, -, huidx, hupc, -, -, -, -, -⟩ := restore_ok_fields t u hrest
  exact ⟨t, u, hpick1, hpick2, hAll, huidx, hupc⟩



theorem C4_pick_roundtrip_witness :
    DisplaysWF demoState.lengthData demoState.displays
    ∧ demoState.clicked = false ∧ demoState.pointClicked = none
    ∧ (∀ ord ∈ demoState.criteria, ∀ m : ℕ, m < demoState.lengthData → (m : ℤ) ∈ ord)
    ∧ demoState.displays.get? 0 = some demoDisplay
    ∧ demoDisplay.artists.get? 1 = some [⟨1, 7⟩]
    ∧ ([⟨1, 7⟩] : List PArtist).get? 0 = some ⟨1, 7⟩
    ∧ demoDisplay.axes.get? 0 = some (PArtist.mk 1 7).axesId
    ∧ (demoState.displays.flatMap Display.axes).Nodup
    ∧ ((demoState.displays.map (fun dd => dd.artists.flatten)).flatten).Nodup
    ∧ (∃ t u, pick ⟨1, 7⟩ demoState = .ok t ∧ pick ⟨1, 7⟩ t = .ok u
        ∧ AllAlphasOne u ∧ u.indexClicked = -1 ∧ u.pointClicked = none) := by
  have hWF : DisplaysWF demoState.lengthData demoState.displays := by
    intro d hd
    rw [List.mem_singleton.mp hd]
    exact ⟨rfl, rfl⟩
  have horders : ∀ ord ∈ demoState.criteria, ∀ m : ℕ, m < demoState.lengthData → (m : ℤ) ∈ ord := by
    intro ord hord m hm
    rw [List.mem_singleton.mp hord]
    have hm3 : m < 3 := hm
    interval_cases m <;> decide
  refine ⟨hWF, rfl, rfl, horders, rfl, rfl, rfl, rfl, by decide, by decide, ?_⟩
  exact C4_pick_roundtrip demoState 0 1 0 ⟨1, 7⟩ demoDisplay [⟨1, 7⟩] hWF rfl rfl horders rfl rfl rfl rfl
    (by decide) (by decide)

/-- C5: `change_points_intensity(old_index)` with an explicit old index.  If
the newly selected index equals `old_index` it is exactly
`restore_points_intensity` (all artists to opacity 1, selection cleared to
-1, all sliders reset to 0).  Otherwise it sets opacity 1 on the newly
selected sample's artists, 0.1 on `old_index`'s sample's artists, leaves
every other sample's opacities unchanged, and pushes the new selection's
position to every slider under the `is_updating` guard (cleared at exit). -/
theorem C5_change_intensity (s : MultipleDisplay) (old : ℤ)
    (hWF : DisplaysWF s.lengthData s.displays)
    (hn : 0 < s.lengthData)
    (hlen : s.criteria.length = s.sliders.length) :
    (s.indexClicked = old →
      change_points_intensity (some old) s = restore_points_intensity s
      ∧ ∀ t, restore_points_intensity s = .ok t →
          AllAlphasOne t ∧ t.indexClicked = -1 ∧ t.pointClicked = none
          ∧ t.sliders = s.sliders.map (fun sl => setVal sl 0))
    ∧ (s.indexClicked ≠ old →
      ∀ t, change_points_intensity (some old) s = .ok t →
        t.indexClicked = s.indexClicked ∧ t.isUpdating = false ∧ SliderInv t
        ∧ t.displays.length = s.displays.length
        ∧ ∀ k d d', s.displays.get? k = some d → t.displays.get? k = some d' →
            (∀ r : ℕ, (r : ℤ) = s.indexClicked → r < s.lengthData →
              d'.alphas.get? r = (d.alphas.get? r).map (fun row => row.map (fun _ => 1)))
            ∧ (∀ r : ℕ, (r : ℤ) = old → r < s.lengthData →
              d'.alphas.get? r = (d.alphas.get? r).map (fun row => row.map (fun _ => (1 / 10))))
            ∧ (∀ r : ℕ, (r : ℤ) ≠ s.indexClicked → (r : ℤ) ≠ old →
              d'.alphas.get? r = d.alphas.get? r)) := by
  constructor
  · intro he
    refine ⟨by rw [change_some]; exact changeBody_eq_restore old s he, ?_⟩
    intro t h
    obtain ⟨-, -, hidx, hpc, -, -, -, hsl, -⟩ := restore_ok_fields s t h
    exact ⟨restore_allAlphasOne s t hWF h, hidx, hpc, hsl⟩
  · intro hne t h
    rw [change_some] at h
    obtain ⟨hl, hcrit, hidx, hpc, hcl, hupd, hwid, hpush, hfold⟩ :=
      changeBody_ok_fields old s t hne h
    refine ⟨hidx, hupd, sliderInv_of_push s t hlen hcrit hidx hpush, ?_, ?_⟩
    · exact (foldE_rows (stepSpec_changeStep s.indexClicked old) (List.range s.lengthData)
        s.displays t.displays hfold).1
    · intro k d d' hd hd'
      obtain ⟨hlen2, hget⟩ := foldE_rows (stepSpec_changeStep s.indexClicked old)
        (List.range s.lengthData) s.displays t.displays hfold
      obtain ⟨f1, f2, f3, funch, fzero, fset⟩ := hget k d d' hd hd'
      obtain ⟨hart, halp⟩ := hWF d (List.get?_mem hd)
      refine ⟨?_, ?_, ?_⟩
      · intro r hr hrn
        refine fset r 1 (List.mem_range.mpr hrn) ?_ (by omega)
        beta_reduce
        rw [if_pos hr]
      · intro r hr hrn
        refine fset r (1 / 10) (List.mem_range.mpr hrn) ?_ (by omega)
        beta_reduce
        rw [if_neg (by rw [hr]; exact fun hc => hne hc.symm), if_pos hr]
      · intro r hr1 hr2
        refine funch r (Or.inr ?_)
        beta_reduce
        rw [if_neg hr1, if_neg hr2]

theorem C5_change_intensity_witness :
    DisplaysWF demoPicked.lengthData demoPicked.displays
    ∧ 0 < demoPicked.lengthData
    ∧ demoPicked.criteria.length = demoPicked.sliders.length
    ∧ demoPicked.indexClicked ≠ (0 : ℤ)
    ∧ change_points_intensity (some 0) demoPicked =
        .ok (okState demoPicked (change_points_intensity (some 0) demoPicked))
    ∧ (okState demoPicked (change_points_intensity (some 0) demoPicked)).indexClicked =
        demoPicked.indexClicked
    ∧ (okState demoPicked (change_points_intensity (some 0) demoPicked)).isUpdating = false
    ∧ SliderInv (okState demoPicked (change_points_intensity (some 0) demoPicked)) := by
  have hWF : DisplaysWF demoPicked.lengthData demoPicked.displays := by
    intro d hd
    rw [List.mem_singleton.mp hd]
    exact ⟨rfl, rfl⟩
  have happ := (C5_change_intensity demoPicked 0 hWF (by decide) rfl).2 (by decide)
    (okState demoPicked (change_points_intensity (some 0) demoPicked)) rfl
  exact ⟨hWF, by decide, rfl, by decide, rfl, happ.1, happ.2.1, happ.2.2.1⟩

/-! ## Claims C6 and C7: construction-time validation

Helper lemmas first: the three shapes `_get_figure_and_axes` can return, and
the value of `init` on an empty display list, on a slider-count mismatch and
on a wrong explicit axis count. -/

/-- The three cases of the figure/axes normalization: explicit axes are used
as given, a supplied figure contributes its own axes, and with neither a new
figure is created with no axes yet. -/
theorem getFigureAndAxes_cases (f : Bool) (fx ax : List ℕ) :
    (ax ≠ [] ∧ getFigureAndAxes f fx ax = (false, ax))
    ∨ (ax = [] ∧ f = true ∧ getFigureAndAxes f fx ax = (false, fx))
    ∨ (ax = [] ∧ f = false ∧ getFigureAndAxes f fx ax = (true, [])) := by
  by_cases hax : ax = []
  · cases hf : f
    · refine Or.inr (Or.inr ⟨hax, rfl, ?_⟩)
      unfold getFigureAndAxes
      rw [if_neg (not_ne_iff.mpr hax), if_neg (by simp)]
    · refine Or.inr (Or.inl ⟨hax, rfl, ?_⟩)
      unfold getFigureAndAxes
      rw [if_neg (not_ne_iff.mpr hax), if_pos rfl]
  · refine Or.inl ⟨hax, ?_⟩
    unfold getFigureAndAxes
    rw [if_pos hax]

/-- Reading `self.displays[0]` on an empty display list raises before
anything else happens. -/
theorem init_nil {a : InitArgs} (hds : a.displays = []) :
    init a = ([], .error .emptyDisplays) := by
  unfold init
  rw [show a.displays.head? = none from by rw [hds]; rfl]

/-- With a first display, `__init__` is its body. -/
theorem init_cons {a : InitArgs} {d0 : Display} {rest : List Display}
    (hds : a.displays = d0 :: rest) : init a = initBody a d0 := by
  unfold init
  rw [show a.displays.head? = some d0 from by rw [hds]; rfl]

/-- A criteria/slider-count mismatch raises at once: the trace holds only the
detached text-tag construction. -/
theorem initBody_count {a : InitArgs} (d0 : Display) (h : a.criteria.length ≠ a.nSliders) :
    initBody a d0 = ([Eff.mkTag], .error .countMismatch) := by
  unfold initBody
  rw [if_pos h]

/-- With a nonempty explicit axis set, the normalization uses it as given
and creates no figure. -/
theorem getFigureAndAxes_of_ne (f : Bool) (fx : List ℕ) {ax : List ℕ} (hax : ax ≠ []) :
    getFigureAndAxes f fx ax = (false, ax) := by
  unfold getFigureAndAxes
  rw [if_pos hax]

/-- A nonempty explicit axis set of the wrong length raises `invalidAxes`,
again with only the tag in the trace (no figure is created when axes are
supplied). -/
theorem initBody_invalid {a : InitArgs} (d0 : Display)
    (hceq : a.criteria.length = a.nSliders) (hax : a.axesArg ≠ [])
    (hlen2 : a.axesArg.length ≠ nGraphsOf a + a.criteria.length) :
    initBody a d0 = ([Eff.mkTag], .error .invalidAxes) := by
  unfold initBody
  rw [if_neg (not_ne_iff.mpr hceq)]
  simp only [getFigureAndAxes_of_ne a.figGiven a.figAxes hax]
  rw [if_pos ⟨fun hc => hax (List.length_eq_zero.mp hc), hlen2⟩]
  simp

/-- **C7.** Construction succeeds only if the number of criteria equals the
number of slider widget factories and, when a nonempty explicit axis set is
supplied, only if its count equals the total number of view axes plus the
number of criteria; each violation (on a nonempty display list, which
construction needs before reaching these checks) fails with the
corresponding configuration error. -/
theorem C7_count_validation (a : InitArgs) :
    (∀ tr st, init a = (tr, Except.ok st) →
      a.criteria.length = a.nSliders ∧
      (a.axesArg ≠ [] → a.axesArg.length = nGraphsOf a + a.criteria.length)) ∧
    (a.displays ≠ [] → a.criteria.length ≠ a.nSliders →
      ∃ tr, init a = (tr, Except.error InitErr.countMismatch)) ∧
    (a.displays ≠ [] → a.criteria.length = a.nSliders → a.axesArg ≠ [] →
      a.axesArg.length ≠ nGraphsOf a + a.criteria.length →
      ∃ tr, init a = (tr, Except.error InitErr.invalidAxes)) := by
  refine ⟨?_, ?_, ?_⟩
  · intro tr st h
    cases hds : a.displays with
    | nil =>
      rw [init_nil hds] at h
      simp at h
    | cons d0 rest =>
      rw [init_cons hds] at h
      by_cases hc : a.criteria.length = a.nSliders
      · refine ⟨hc, ?_⟩
        intro hax
        by_cases hlen : a.axesArg.length = nGraphsOf a + a.criteria.length
        · exact hlen
        · rw [initBody_invalid d0 hc hax hlen] at h
          simp at h
      · rw [initBody_count d0 hc] at h
        simp at h
  · intro hne hc
    obtain ⟨d0, rest, hds⟩ := List.exists_cons_of_ne_nil hne
    exact ⟨[Eff.mkTag], by rw [init_cons hds, initBody_count d0 hc]⟩
  · intro hne hc hax hlen
    obtain ⟨d0, rest, hds⟩ := List.exists_cons_of_ne_nil hne
    exact ⟨[Eff.mkTag], by rw [init_cons hds, initBody_invalid d0 hc hax hlen]⟩

/-- **C7, witness.** On one criterion against two widget factories,
construction fails with the count-mismatch error. -/
theorem C7_count_validation_witness :
    ∃ tr, init badCountArgs = (tr, Except.error InitErr.countMismatch) :=
  (C7_count_validation badCountArgs).2.1 (by simp [badCountArgs]) (by decide)

/-- **C6, counterexample.** A criterion shorter than `length_data` (with
matching counts and no supplied figure or axes) is only detected by
`_create_sliders`, after `__init__` has already created the figure and laid
out the axes: the construction fails with the criterion-length error, yet
the trace of rendering side effects contains the figure creation and the
axis layout.  This refutes the claim that every configuration error is
raised before any rendering side effect. -/
theorem C6_render_before_error_counterexample :
    (init badCriterionArgs).2 = Except.error InitErr.criterionLength ∧
    Eff.figCreate ∈ (init badCriterionArgs).1 ∧
    Eff.layoutAxes ∈ (init badCriterionArgs).1 := by
  refine ⟨rfl, ?_, ?_⟩ <;> decide

/-- **C6, amended.** What fail-fast the constructor does guarantee: the
count-mismatch and invalid-axes errors are raised before any rendering side
effect (the trace holds only the detached text-tag construction), and no
slider widget is ever built when construction fails with any error. -/
theorem C6_fail_fast (a : InitArgs) (tr : List Eff) (e : InitErr)
    (h : init a = (tr, Except.error e)) :
    (e = InitErr.countMismatch → tr = [Eff.mkTag]) ∧
    (e = InitErr.invalidAxes → tr = [Eff.mkTag]) ∧
    (∀ k, Eff.buildSlider k ∉ tr) := by
  cases hds : a.displays with
  | nil =>
    rw [init_nil hds] at h
    rw [Prod.ext_iff] at h
    obtain ⟨h1, h2⟩ := h
    obtain rfl := h1
    obtain rfl := Except.error.inj h2
    exact ⟨fun hc => absurd hc (by decide), fun hc => absurd hc (by decide),
      fun k => by simp⟩
  | cons d0 rest =>
    rw [init_cons hds] at h
    simp only [initBody] at h
    split at h
    · rw [Prod.ext_iff] at h
      obtain ⟨h1, h2⟩ := h
      obtain rfl := h1
      obtain rfl := Except.error.inj h2
      exact ⟨fun _ => rfl, fun hc => absurd hc (by decide), fun k => by simp⟩
    · split at h
      · next hc2 =>
        rcases getFigureAndAxes_cases a.figGiven a.figAxes a.axesArg with
          ⟨hax, hfa⟩ | ⟨hax, hf, hfa⟩ | ⟨hax, hf, hfa⟩
        · rw [hfa] at h
          simp only [List.append_nil, Bool.false_eq_true, if_false] at h
          rw [Prod.ext_iff] at h
          obtain ⟨h1, h2⟩ := h
          obtain rfl := h1
          obtain rfl := Except.error.inj h2
          exact ⟨fun hc => absurd hc (by decide), fun _ => rfl, fun k => by simp⟩
        · rw [hfa] at h
          simp only [List.append_nil, Bool.false_eq_true, if_false] at h
          rw [Prod.ext_iff] at h
          obtain ⟨h1, h2⟩ := h
          obtain rfl := h1
          obtain rfl := Except.error.inj h2
          exact ⟨fun hc => absurd hc (by decide), fun _ => rfl, fun k => by simp⟩
        · rw [hfa] at hc2
          simp at hc2
      · split at h
        · rw [Prod.ext_iff] at h
          obtain ⟨h1, h2⟩ := h
          obtain rfl := h1
          obtain rfl := Except.error.inj h2
          refine ⟨fun hc => absurd hc (by decide), fun hc => absurd hc (by decide), ?_⟩
          intro k hk
          simp only [List.mem_append, List.mem_map, List.mem_singleton,
            List.mem_cons, List.not_mem_nil, or_false] at hk
          rcases hk with ((hk | hk) | hk) | ⟨i, _, hk⟩
          · simp at hk
          · split at hk <;> simp at hk
          · split at hk <;> simp at hk
          · split at hk <;> simp at hk
        · simp at h

/-- **C6, witness.** On the count-mismatch arguments the amended theorem
applies: the error trace is exactly the tag and holds no slider build. -/
theorem C6_fail_fast_witness :
    init badCountArgs = ([Eff.mkTag], Except.error InitErr.countMismatch) ∧
    Eff.buildSlider 0 ∉ [Eff.mkTag] := by
  have h := C6_fail_fast badCountArgs [Eff.mkTag] InitErr.countMismatch rfl
  exact ⟨rfl, h.2.2 0⟩

end SkfdaMD
